import Mathlib

/-!
Verification of the segmented write-ahead log library.

The Go sources are shallowly embedded: bytes are `Nat` values kept below 256
at every point where the code serializes them, machine integers are `Nat`
with explicit `% 2 ^ w` masking where the code can overflow, files are lists
of bytes together with a cursor position, and the file system is an
association list from path strings to file contents.  Fallible operations
return `Except GoErr` or pair their result with an error slot, mirroring the
Go `(value, error)` conventions, and `errorsIs` mirrors `errors.Is` over
wrapped (`fmt.Errorf %w`) and joined (`errors.Join`) errors.
-/

namespace Wal

/-! ## Little-endian integer serialization (`encoding/binary`, `Endian`) -/

/-- `leBytes w n` is the `w`-byte little-endian serialization of `n`,
mirroring `Endian.PutUint16/32/64` from the Go `encoding/binary` package. -/
def leBytes : Nat → Nat → List Nat
  | 0, _ => []
  | w + 1, n => n % 256 :: leBytes w (n / 256)

/-- `leVal bs` decodes a little-endian byte list back into one number,
mirroring `Endian.Uint16/32/64`. -/
def leVal : List Nat → Nat
  | [] => 0
  | b :: bs => b % 256 + 256 * leVal bs

/-! ## Unsigned varint encoding (`binary.PutUvarint`) -/

/-- `putUvarint n` mirrors Go `binary.PutUvarint`: 7 data bits per byte,
least-significant group first, continuation bit `0x80` on all but the last
byte.  `byte(x) | 0x80` equals `x % 128 + 128`. -/
def putUvarint (n : Nat) : List Nat :=
  if n < 128 then [n]
  else (n % 128 + 128) :: putUvarint (n / 128)
decreasing_by exact Nat.div_lt_self (by omega) (by omega)

/-! ## The error model (`errors`, `fmt.Errorf %w`, `errors.Join`) -/

/-- Errors of the embedded program.  Sentinel values of the Go code become
constructors; `wrap` is `fmt.Errorf("...: %w", err)` and `join` is
`errors.Join` of two non-nil errors. -/
inductive GoErr where
  | eof
  | unexpectedEof
  | entryNone
  | checksumMismatch
  | lengthOverflow
  | uvarintOverflow
  | invalidMagic
  | unsupportedVersion
  | unsupportedLengthEncoding
  | unsupportedChecksumType
  | headerSeqMismatch (want got : Nat)
  | fileNotFound (path : String)
  | errMsg (s : String)
  | wrap (s : String) (inner : GoErr)
  | join (a b : GoErr)
deriving DecidableEq, Repr

/-- `errorsIs e target` mirrors Go `errors.Is(e, target)` for sentinel
targets: equality at any level of the `Unwrap` tree. -/
def errorsIs : GoErr → GoErr → Bool
  | .wrap _ inner, t => .wrap "" inner == t || errorsIs inner t
  | .join a b, t => .join a b == t || errorsIs a t || errorsIs b t
  | e, t => e == t

/-- `errors.Is` with a possibly-nil error on the left. -/
def errorsIsO : Option GoErr → GoErr → Bool
  | none, _ => false
  | some e, t => errorsIs e t

/-! ## CRC-32 (IEEE) and CRC-64 (ISO) checksums (`hash/crc32`, `hash/crc64`)

Go's table-driven CRC equals the reflected bit-at-a-time algorithm: the
checksum starts from all-ones, each input byte is xor-ed into the low bits,
eight conditional shift-xor rounds with the reflected polynomial follow, and
the result is inverted again. -/

/-- `crc32.IEEE` in its reflected representation, as used by Go's table. -/
def crc32Poly : Nat := 0xedb88320

/-- `crc64.ISO` as used by Go's table (already reflected). -/
def crc64Poly : Nat := 0xd800000000000000

/-- One bit round of the reflected CRC algorithm. -/
def crcRound (poly c : Nat) : Nat :=
  if c % 2 = 1 then c / 2 ^^^ poly else c / 2

/-- One byte of input folded into the running CRC. -/
def crcByte (poly c b : Nat) : Nat :=
  (crcRound poly)^[8] (c ^^^ b % 256)

/-- `crc32.Checksum(data, crc32.MakeTable(crc32.IEEE))`. -/
def crc32 (data : List Nat) : Nat :=
  data.foldl (crcByte crc32Poly) 0xffffffff ^^^ 0xffffffff

/-- `crc64.Checksum(data, crc64.MakeTable(crc64.ISO))`. -/
def crc64 (data : List Nat) : Nat :=
  data.foldl (crcByte crc64Poly) 0xffffffffffffffff ^^^ 0xffffffffffffffff

/-! ## Files as byte lists with a cursor (`os.File` as `io.Reader`/`io.Seeker`) -/

/-- An open file for reading: its contents and the seek position. -/
structure RFile where
  data : List Nat
  pos : Nat
deriving DecidableEq, Repr

/-- Bytes available from the current position to the end of the file. -/
def RFile.remaining (f : RFile) : Nat := f.data.length - f.pos

/-- `io.ReadFull(f, buf[:k])`: all `k` bytes, or `io.EOF` when nothing was
available, or `io.ErrUnexpectedEOF` after a partial read (which consumes
what was available). -/
def readFull (f : RFile) (k : Nat) : Except GoErr (List Nat) × RFile :=
  if k ≤ f.remaining then
    (.ok ((f.data.drop f.pos).take k), { f with pos := f.pos + k })
  else if f.remaining = 0 then (.error .eof, f)
  else (.error .unexpectedEof, { f with pos := f.data.length })

/-- A single-byte `Read` as issued by `ReadUvarint`: `io.EOF` at the end of
the file, otherwise the byte under the cursor (masked to byte width). -/
def readByte (f : RFile) : Except GoErr Nat × RFile :=
  match f.data.drop f.pos with
  | [] => (.error .eof, f)
  | b :: _ => (.ok (b % 256), { f with pos := f.pos + 1 })

/-! ## `encoding.ReadUvarint` (src/internal/encoding/read_uvarint.go)

The Go loop index `i` runs from 0 to 9; the recursion below carries the
remaining iteration count `fuel = 10 - i`.  The `uint64` accumulator is
masked with `% 2 ^ 64` at each assignment. -/

def readUvarintAux (x s : Nat) (raw : List Nat) (f : RFile) :
    Nat → Except GoErr (Nat × List Nat) × RFile
  | 0 => (.error .uvarintOverflow, f)
  | fuel + 1 =>
    match readByte f with
    | (.error e, f') =>
      (.error (if fuel + 1 < 10 ∧ e = .eof then .unexpectedEof else e), f')
    | (.ok b, f') =>
      if b < 128 then
        if fuel = 0 ∧ 1 < b then (.error .uvarintOverflow, f')
        else (.ok ((x ||| b <<< s) % 2 ^ 64, raw ++ [b]), f')
      else
        readUvarintAux ((x ||| (b % 128) <<< s) % 2 ^ 64) (s + 7) (raw ++ [b]) f' fuel

/-- `ReadUvarint(r, buffer)`: the decoded value together with the raw bytes
consumed (the Go function leaves them in `buffer[:i+1]` and returns their
count). -/
def ReadUvarint (f : RFile) : Except GoErr (Nat × List Nat) × RFile :=
  readUvarintAux 0 0 [] f 10

/-! ## Entry length codec (entry_length.go)

Encodings are the header codes `1 = uint16`, `2 = uint32`, `3 = uint64`,
`4 = uvarint` (the Go `EntryLengthEncoding` constants).  `WriteEntryLength`
combines `GetEntryLengthWriter` with the four `WriteEntryLength*` functions;
`ReadEntryLength` combines `GetEntryLengthReader` with the four readers.
The readers additionally return the raw bytes consumed, mirroring the
`(uint64, int, error)` reader signature used by the segment reader (the
bytes are left in the caller's scratch buffer by the Go code). -/

def MaxLengthBufferLen : Nat := 10

def MaxChecksumBufferLen : Nat := 8

def WriteEntryLength (encCode : Nat) (length : Nat) : Except GoErr (List Nat) :=
  match encCode with
  | 1 => if 65535 < length then .error .lengthOverflow else .ok (leBytes 2 length)
  | 2 => if 4294967295 < length then .error .lengthOverflow else .ok (leBytes 4 length)
  | 3 => .ok (leBytes 8 length)
  | 4 => .ok (putUvarint length)
  | _ => .error .unsupportedLengthEncoding

def readLengthFixed (w : Nat) (f : RFile) : Except GoErr (Nat × List Nat) × RFile :=
  match readFull f w with
  | (.error e, f') => (.error (.wrap "reading WAL entry length" e), f')
  | (.ok bs, f') => (.ok (leVal bs, bs), f')

def ReadEntryLength (encCode : Nat) (f : RFile) : Except GoErr (Nat × List Nat) × RFile :=
  match encCode with
  | 1 => readLengthFixed 2 f
  | 2 => readLengthFixed 4 f
  | 3 => readLengthFixed 8 f
  | 4 => ReadUvarint f
  | _ => (.error .unsupportedLengthEncoding, f)

/-- The largest payload length each encoding can represent. -/
def maxLengthValue (encCode : Nat) : Nat :=
  match encCode with
  | 1 => 65535
  | 2 => 4294967295
  | _ => 18446744073709551615

/-! ## Entry checksum codec (entry_checksum.go)

Checksum types are the header codes `1 = crc32`, `2 = crc64`.  The writer
serializes the checksum of `data` in 4 or 8 bytes; the reader deserializes,
compares against the checksum of `data` and returns the number of bytes it
consumed. -/

def WriteEntryChecksum (ctCode : Nat) (data : List Nat) : Except GoErr (List Nat) :=
  match ctCode with
  | 1 => .ok (leBytes 4 (crc32 data))
  | 2 => .ok (leBytes 8 (crc64 data))
  | _ => .error .unsupportedChecksumType

def readChecksumFixed (w : Nat) (want : Nat) (f : RFile) : Except GoErr Nat × RFile :=
  match readFull f w with
  | (.error e, f') => (.error (.wrap "reading WAL entry checksum" e), f')
  | (.ok bs, f') =>
    if leVal bs ≠ want then (.error .checksumMismatch, f') else (.ok w, f')

def ReadEntryChecksum (ctCode : Nat) (data : List Nat) (f : RFile) :
    Except GoErr Nat × RFile :=
  match ctCode with
  | 1 => readChecksumFixed 4 (crc32 data) f
  | 2 => readChecksumFixed 8 (crc64 data) f
  | _ => (.error .unsupportedChecksumType, f)

/-- The successful output of `WriteEntryLength` for supported codes. -/
def encodedLength (encCode n : Nat) : List Nat :=
  match encCode with
  | 1 => leBytes 2 n
  | 2 => leBytes 4 n
  | 3 => leBytes 8 n
  | _ => putUvarint n

/-! ## Segment header codec (src/internal/encoding/header.go) -/

structure Header where
  magic : List Nat
  version : Nat
  entryLengthEncoding : Nat
  entryChecksumType : Nat
  firstSequenceNumber : Nat
deriving DecidableEq, Repr

def HeaderSize : Nat := 16

def Magic : List Nat := [87, 65, 76, 0]

def HeaderVersion : Nat := 1

/-- `WriteHeader` serializes the header into its 16-byte wire form: the Go
code fills a zeroed 16-byte buffer, so a magic shorter than four bytes is
padded with zeros. -/
def WriteHeader (h : Header) : List Nat :=
  (h.magic.take 4 ++ List.replicate (4 - h.magic.length) 0) ++
    leBytes 2 h.version ++
    [h.entryLengthEncoding % 256] ++
    [h.entryChecksumType % 256] ++
    leBytes 8 h.firstSequenceNumber

/-- `ReadHeader` consumes 16 bytes and validates magic, version, length
encoding and checksum type in that order. -/
def ReadHeader (f : RFile) : Except GoErr Header × RFile :=
  match readFull f 16 with
  | (.error e, f') => (.error (.wrap "reading WAL header" e), f')
  | (.ok bs, f') =>
    let result : Header :=
      { magic := bs.take 4
        version := leVal ((bs.drop 4).take 2)
        entryLengthEncoding := bs.getD 6 0
        entryChecksumType := bs.getD 7 0
        firstSequenceNumber := leVal ((bs.drop 8).take 8) }
    if result.magic ≠ Magic then (.error .invalidMagic, f')
    else if result.version ≠ HeaderVersion then (.error .unsupportedVersion, f')
    else if result.entryLengthEncoding ∉ [1, 2, 3, 4] then
      (.error .unsupportedLengthEncoding, f')
    else if result.entryChecksumType ∉ [1, 2] then
      (.error .unsupportedChecksumType, f')
    else (.ok result, f')

/-! ## Segment writer (src/unnamed/part_019, `SegmentWriter`) -/

/-- A positional file write (`os.File.Write` at seek position `p`): bytes
before `p` are kept, a sparse gap is zero-filled, the blob overwrites the
region at `p`, bytes past the written region survive. -/
def writeAt (data : List Nat) (p : Nat) (blob : List Nat) : List Nat :=
  data.take p ++ List.replicate (p - data.length) 0 ++ blob ++
    data.drop (p + blob.length)

/-- The state of `SegmentWriter`: the underlying file contents (its write
cursor coincides with `offset`), whether file writes succeed (modelling the
possibility of an I/O error on the single `Write` call), the file name the
handle reports, the immutable header, the current byte offset and the next
sequence number. -/
structure SegmentWriter where
  fileData : List Nat
  fileOk : Bool
  filePath : String
  header : Header
  offset : Nat
  nextSequenceNumber : Nat
deriving DecidableEq, Repr

/-- `SegmentWriter.AppendEntry`: encode length, payload and checksum into
the write buffer, hand the whole blob to the file in one write call, and
only then advance the sequence number and the offset. -/
def SegmentWriter.AppendEntry (w : SegmentWriter) (data : List Nat) :
    Except GoErr Nat × SegmentWriter :=
  match WriteEntryLength w.header.entryLengthEncoding data.length with
  | .error e => (.error e, w)
  | .ok lenB =>
    let body := lenB ++ data
    match WriteEntryChecksum w.header.entryChecksumType body with
    | .error e => (.error e, w)
    | .ok chkB =>
      let blob := body ++ chkB
      if w.fileOk then
        (.ok w.nextSequenceNumber,
         { w with
           fileData := writeAt w.fileData w.offset blob,
           offset := w.offset + blob.length,
           nextSequenceNumber := w.nextSequenceNumber + 1 })
      else
        (.error (.wrap "writing WAL entry to segment file" (.errMsg "write error")), w)

/-- `SegmentWriter.Truncate`: resize the file to the current offset,
zero-extending when the offset lies past the end. -/
def SegmentWriter.Truncate (w : SegmentWriter) : SegmentWriter :=
  { w with fileData :=
      w.fileData.take w.offset ++
        List.replicate (w.offset - w.fileData.length) 0 }

/-! ## Segment reader (src/internal/segment/segment_reader.go) -/

/-- The state of `SegmentReader`: the file with its seek position, the
header, the logical offset, the next sequence number, the recorded total
file size, the current value and the stored error. -/
structure SegmentReader where
  file : RFile
  filePath : String
  header : Header
  offset : Nat
  nextSequenceNumber : Nat
  fileSize : Nat
  valueSeq : Nat
  valueData : List Nat
  err : Option GoErr
deriving DecidableEq, Repr

/-- `SegmentReader.next` (lowercase): read the length, guard against
lengths that would read past `fileSize - offset`, read the payload, read
and verify the checksum over the raw length bytes followed by the payload,
then publish the value and advance offset and sequence number. -/
def SegmentReader.next (r : SegmentReader) : Except GoErr SegmentReader :=
  match ReadEntryLength r.header.entryLengthEncoding r.file with
  | (.error e, _) => .error e
  | (.ok (length, raw), f1) =>
    if (r.fileSize : Int) - (r.offset : Int) < (length : Int) then
      .error (.errMsg "the WAL entry data exceeds the maximum possible size")
    else
      match readFull f1 length with
      | (.error e, _) => .error (.wrap "reading WAL entry data" e)
      | (.ok payload, f2) =>
        match ReadEntryChecksum r.header.entryChecksumType (raw ++ payload) f2 with
        | (.error e, _) => .error e
        | (.ok checksumBytes, f3) =>
          .ok { r with
                file := f3,
                valueData := payload,
                valueSeq := r.nextSequenceNumber,
                offset := r.offset + raw.length + length + checksumBytes,
                nextSequenceNumber := r.nextSequenceNumber + 1 }

/-- `SegmentReader.Next` (capital): on failure join the inner error with
`ErrEntryNone`, seek the file back to the saved offset, store the error and
report `false`; on success clear the error and report `true`. -/
def SegmentReader.Next (r : SegmentReader) : Bool × SegmentReader :=
  match r.next with
  | .error e =>
    (false, { r with
              err := some (.join .entryNone e),
              file := { r.file with pos := r.offset } })
  | .ok r' => (true, { r' with err := none })

/-- The zero value `SegmentReader{}` that `ToWriter` leaves behind. -/
def zeroSegmentReader : SegmentReader :=
  { file := { data := [], pos := 0 }, filePath := "",
    header := { magic := [0, 0, 0, 0], version := 0, entryLengthEncoding := 0,
                entryChecksumType := 0, firstSequenceNumber := 0 },
    offset := 0, nextSequenceNumber := 0, fileSize := 0,
    valueSeq := 0, valueData := [], err := none }

/-- `SegmentReader.ToWriter`: allowed only when the stored error wraps
`ErrEntryNone`; transfers the file handle into a fresh segment writer at
the saved offset and next sequence number and invalidates the reader. -/
def SegmentReader.ToWriter (r : SegmentReader) :
    Except GoErr (SegmentWriter × SegmentReader) :=
  if ¬errorsIsO r.err .entryNone then
    .error (.errMsg "segment needs to be read until the last entry is reached")
  else
    .ok ({ fileData := r.file.data, fileOk := true, filePath := r.filePath,
           header := r.header, offset := r.offset,
           nextSequenceNumber := r.nextSequenceNumber },
         zeroSegmentReader)

/-! ## The append-then-read roundtrip at the segment level -/

/-- The successful output of `WriteEntryChecksum` for supported codes. -/
def encodedChecksum (ctCode : Nat) (data : List Nat) : List Nat :=
  match ctCode with
  | 2 => leBytes 8 (crc64 data)
  | _ => leBytes 4 (crc32 data)

/-- The bytes one appended entry occupies on disk. -/
def entryBlob (encCode ctCode : Nat) (payload : List Nat) : List Nat :=
  encodedLength encCode payload.length ++ payload ++
    encodedChecksum ctCode (encodedLength encCode payload.length ++ payload)

/-- A fresh segment reader positioned at the start of one entry's bytes. -/
def mkReadbackReader (h : Header) (seq : Nat) (blob : List Nat) : SegmentReader :=
  { file := { data := blob, pos := 0 }, filePath := "", header := h,
    offset := 0, nextSequenceNumber := seq, fileSize := blob.length,
    valueSeq := 0, valueData := [], err := none }

def c1WitnessWriter : SegmentWriter :=
  { fileData := [], fileOk := true, filePath := "00000000000000000000.wal",
    header := { magic := Magic, version := 1, entryLengthEncoding := 1,
                entryChecksumType := 1, firstSequenceNumber := 0 },
    offset := 0, nextSequenceNumber := 0 }

def c8WitnessWriter : SegmentWriter :=
  { fileData := [], fileOk := true, filePath := "00000000000000000000.wal",
    header := { magic := Magic, version := 1, entryLengthEncoding := 4,
                entryChecksumType := 2, firstSequenceNumber := 0 },
    offset := 0, nextSequenceNumber := 5 }

def c10WitnessWriter : SegmentWriter :=
  { fileData := [1, 2, 3], fileOk := false, filePath := "00000000000000000000.wal",
    header := { magic := Magic, version := 1, entryLengthEncoding := 2,
                entryChecksumType := 1, firstSequenceNumber := 0 },
    offset := 3, nextSequenceNumber := 3 }

def c5WitnessHeader : Header :=
  { magic := Magic, version := 1, entryLengthEncoding := 1,
    entryChecksumType := 1, firstSequenceNumber := 0 }

/-- An exhausted reader: empty entry region, cursor at the end. -/
def c5WitnessReader : SegmentReader := mkReadbackReader c5WitnessHeader 0 []

/-- A u16-encoded segment whose file ends exactly after a length prefix
announcing a 1-byte payload: a short payload read. -/
def c4Reader : SegmentReader :=
  { file := { data := [1, 0], pos := 0 }, filePath := "",
    header := { magic := Magic, version := 1, entryLengthEncoding := 1,
                entryChecksumType := 1, firstSequenceNumber := 0 },
    offset := 0, nextSequenceNumber := 0, fileSize := 2,
    valueSeq := 0, valueData := [], err := none }

def c9WitnessHeader : Header :=
  { magic := Magic, version := 1, entryLengthEncoding := 3,
    entryChecksumType := 2, firstSequenceNumber := 123456789 }

/-! ## The directory as an association list from paths to file contents -/

/-- The file system visible to the WAL: path → contents. -/
def FS := List (String × List Nat)

def fsLookup (fs : FS) (p : String) : Option (List Nat) :=
  match fs with
  | [] => none
  | (q, c) :: rest => if q = p then some c else fsLookup rest p

def fsErase (fs : FS) (p : String) : FS :=
  match fs with
  | [] => []
  | (q, c) :: rest => if q = p then fsErase rest p else (q, c) :: fsErase rest p

def fsInsert (fs : FS) (p : String) (c : List Nat) : FS :=
  (p, c) :: fsErase fs p

/-- `path.Join(directory, name)` for the clean one-level joins the WAL
performs. -/
def joinPath (dir name : String) : String :=
  if dir = "" then name else dir ++ "/" ++ name

/-- `path.Dir`: everything before the final slash, `"."` when there is no
slash. -/
def pathDir (p : String) : String :=
  let parts := p.splitOn "/"
  if parts.length ≤ 1 then "." else String.intercalate "/" parts.dropLast

/-- `strings.TrimSuffix(p, ".new")`. -/
def trimDotNew (p : String) : String :=
  if p.endsWith ".new" then p.dropRight 4 else p

/-- Modelled from the spec: `SegmentFileName` itself is not under `src/`
(only callers are); §3 and §6 fix the name as the zero-padded 20-digit
decimal representation of the first sequence number with suffix `.wal`. -/
def SegmentFileName (n : Nat) : String :=
  let s := toString n
  String.mk (List.replicate (20 - s.length) '0') ++ s ++ ".wal"

/-! ## Segment creation (src/unnamed/part_019, `CreateSegment`) -/

structure CreateSegmentConfig where
  preAllocationSize : Nat
  entryLengthEncoding : Nat
  entryChecksumType : Nat

def DefaultPreAllocationSize : Nat := 64 * 1024 * 1024

/-- `CreateSegment`: remove a stale `.new` file, create the temporary file,
pre-allocate it, write and flush the header, rename it onto the final path
(`os.Rename` replaces an existing destination), and hand back a writer
positioned after the header.  The file handle keeps reporting the `.new`
name after the rename, as `os.File.Name` does. -/
def CreateSegment (fs : FS) (directory : String) (firstSequenceNumber : Nat)
    (cfg : CreateSegmentConfig) : FS × SegmentWriter :=
  let newSegmentFilePath := joinPath directory (SegmentFileName firstSequenceNumber ++ ".new")
  let fs1 := fsErase fs newSegmentFilePath
  let contents0 : List Nat :=
    if 0 < cfg.preAllocationSize then List.replicate cfg.preAllocationSize 0 else []
  let header : Header :=
    { magic := Magic, version := HeaderVersion,
      entryLengthEncoding := cfg.entryLengthEncoding,
      entryChecksumType := cfg.entryChecksumType,
      firstSequenceNumber := firstSequenceNumber }
  let contents1 := writeAt contents0 0 (WriteHeader header)
  let segmentFilePath := joinPath directory (SegmentFileName firstSequenceNumber)
  let fs2 := fsInsert (fsErase fs1 newSegmentFilePath) segmentFilePath contents1
  (fs2,
   { fileData := contents1, fileOk := true, filePath := newSegmentFilePath,
     header := header, offset := HeaderSize,
     nextSequenceNumber := firstSequenceNumber })

/-! ## The multi-segment WAL writer (src/internal/wal/writer.go) -/

/-- The state of `wal.Writer` that the rollover logic touches.  The sync
policy is pure coordination (locking and flushing) and has no effect on
offsets, sequence numbers or file contents, so its `Shutdown`/`Startup`
calls are modelled as no-ops. -/
structure WalWriter where
  segmentWriter : SegmentWriter
  preAllocationSize : Nat
  maxSegmentSize : Nat
  entryLengthEncoding : Nat
  entryChecksumType : Nat

/-- `Writer.rollover`: shut the sync policy down, truncate the outgoing
segment to its observed offset, close it (writing its contents back at its
final path), create the next segment in the same directory with the
outgoing writer's next sequence number, install it and restart the sync
policy. -/
def WalWriter.rollover (w : WalWriter) (fs : FS) : FS × WalWriter :=
  let truncated := w.segmentWriter.Truncate
  let fs1 := fsInsert fs (trimDotNew truncated.filePath) truncated.fileData
  let created := CreateSegment fs1 (pathDir w.segmentWriter.filePath)
    w.segmentWriter.nextSequenceNumber
    { preAllocationSize := w.preAllocationSize,
      entryLengthEncoding := w.entryLengthEncoding,
      entryChecksumType := w.entryChecksumType }
  (created.1, { w with segmentWriter := created.2 })

/-- `Writer.rolloverIfNeeded`: roll over exactly when the current offset
has reached the configured maximum segment size.  The boolean records
whether the rollover branch was taken. -/
def WalWriter.rolloverIfNeeded (w : WalWriter) (fs : FS) : FS × WalWriter × Bool :=
  if w.segmentWriter.offset < w.maxSegmentSize then (fs, w, false)
  else
    let rolled := w.rollover fs
    (rolled.1, rolled.2, true)

/-- `Writer.appendEntry` (the part under the writer lock): roll over if
needed, then delegate to the segment writer. -/
def WalWriter.appendEntry (w : WalWriter) (fs : FS) (data : List Nat) :
    Except GoErr Nat × FS × WalWriter × Bool :=
  let r := w.rolloverIfNeeded fs
  let res := r.2.1.segmentWriter.AppendEntry data
  match res.1 with
  | .error e => (.error (.wrap "writing entry to segment file" e), r.1, r.2.1, r.2.2)
  | .ok seq => (.ok seq, r.1, { r.2.1 with segmentWriter := res.2 }, r.2.2)

def c6WitnessWal : WalWriter :=
  { segmentWriter :=
      { fileData := WriteHeader
          { magic := Magic, version := 1, entryLengthEncoding := 1,
            entryChecksumType := 1, firstSequenceNumber := 0 },
        fileOk := true, filePath := "d/00000000000000000000.wal.new",
        header := { magic := Magic, version := 1, entryLengthEncoding := 1,
                    entryChecksumType := 1, firstSequenceNumber := 0 },
        offset := 16, nextSequenceNumber := 0 },
    preAllocationSize := 0, maxSegmentSize := 17,
    entryLengthEncoding := 1, entryChecksumType := 1 }

def c7WitnessWal : WalWriter :=
  { segmentWriter :=
      { fileData := WriteHeader
          { magic := Magic, version := 1, entryLengthEncoding := 1,
            entryChecksumType := 1, firstSequenceNumber := 0 } ++ [9, 9, 9, 9],
        fileOk := true, filePath := "d/00000000000000000000.wal.new",
        header := { magic := Magic, version := 1, entryLengthEncoding := 1,
                    entryChecksumType := 1, firstSequenceNumber := 0 },
        offset := 20, nextSequenceNumber := 2 },
    preAllocationSize := 0, maxSegmentSize := 17,
    entryLengthEncoding := 1, entryChecksumType := 1 }

/-! ## `Init` (src/internal/wal/sync_policy.go, lines 282-307)

`Init` builds a writer value only to reuse its option set, then creates
segment zero through `CreateSegment` and closes it.  The sync policy of
that throwaway writer is never started, and `Close` has no further effect
on the file system, so the embedding returns the file system after
`CreateSegment`. -/

/-- The writer fields `Init` configures through its options. -/
structure InitWriter where
  preAllocationSize : Nat
  maxSegmentSize : Nat
  firstSequenceNumber : Nat
  entryLengthEncoding : Nat
  entryChecksumType : Nat

def WriterOption := InitWriter → InitWriter

/-- `WithPreAllocationSize` (the `max(·, 0)` clamp is the identity on
naturals). -/
def WithPreAllocationSize (n : Nat) : WriterOption :=
  fun w => { w with preAllocationSize := n }

def WithEntryLengthEncoding (e : Nat) : WriterOption :=
  fun w => { w with entryLengthEncoding := e }

def WithEntryChecksumType (c : Nat) : WriterOption :=
  fun w => { w with entryChecksumType := c }

/-- The defaults `Init` starts from: `DefaultEntryLengthEncoding` is
`uint32` (code 2), `DefaultEntryChecksumType` is `crc32` (code 1), the
`firstSequenceNumber` field keeps its zero value. -/
def walInit (fs : FS) (directory : String) (options : List WriterOption) :
    Except GoErr FS :=
  let w0 : InitWriter :=
    { preAllocationSize := DefaultPreAllocationSize,
      maxSegmentSize := DefaultPreAllocationSize,
      firstSequenceNumber := 0,
      entryLengthEncoding := 2,
      entryChecksumType := 1 }
  let w := options.foldl (fun acc f => f acc) w0
  let created := CreateSegment fs directory w.firstSequenceNumber
    { preAllocationSize := w.preAllocationSize,
      entryLengthEncoding := w.entryLengthEncoding,
      entryChecksumType := w.entryChecksumType }
  .ok created.1

def c3Header : Header :=
  { magic := Magic, version := HeaderVersion, entryLengthEncoding := 2,
    entryChecksumType := 1, firstSequenceNumber := 0 }

def c3Path : String := joinPath "d" (SegmentFileName 0)

/-- A directory that already contains an initialized WAL: segment zero
holds a header and one appended entry. -/
def c3FS : FS := [(c3Path, WriteHeader c3Header ++ entryBlob 2 1 [97])]

/-! ## The multi-segment reader (src/internal/wal/reader.go)

`OpenSegment` follows src/internal/segment/segment_reader.go lines 75-122:
open the file at `path.Join(directory, SegmentFileName(n))`, read and
validate the header, check its first sequence number, record the file size
and the position after the header.  The checks of
`GetEntryLengthReader`/`GetEntryChecksumReader` inside `NewSegmentReader`
are unreachable after `ReadHeader` but kept. -/

def OpenSegment (fs : FS) (directory : String) (firstSequenceNumber : Nat) :
    Except GoErr SegmentReader :=
  let segmentFilePath := joinPath directory (SegmentFileName firstSequenceNumber)
  match fsLookup fs segmentFilePath with
  | none => .error (.wrap "the WAL segment file" (.fileNotFound segmentFilePath))
  | some contents =>
    match ReadHeader { data := contents, pos := 0 } with
    | (.error e, _) => .error (.wrap "reading header" e)
    | (.ok header, f') =>
      if header.firstSequenceNumber ≠ firstSequenceNumber then
        .error (.headerSeqMismatch firstSequenceNumber header.firstSequenceNumber)
      else if header.entryLengthEncoding ∉ [1, 2, 3, 4] then
        .error .unsupportedLengthEncoding
      else if header.entryChecksumType ∉ [1, 2] then
        .error .unsupportedChecksumType
      else
        .ok { file := f', filePath := segmentFilePath, header := header,
              offset := HeaderSize, nextSequenceNumber := firstSequenceNumber,
              fileSize := contents.length, valueSeq := 0, valueData := [],
              err := none }

/-- The multi-segment `Reader`: the active segment reader and the reader's
own error slot.  It records no directory. -/
structure WalReader where
  segmentReader : SegmentReader
  err : Option GoErr

/-- `Reader.Next` (src/internal/wal/reader.go lines 87-120), with explicit
recursion fuel for the tail recursion into the next segment: delegate to
the segment reader; on success report `true`; on a non-EOF error report
`false`; on EOF call `OpenSegment(SegmentFileName(nextSeq), nextSeq)` —
the code passes the segment file NAME as the DIRECTORY argument — keep the
old error and report `false` when that fails, otherwise close the old
reader, install the new one and recurse. -/
def WalReader.NextAux (fs : FS) (r : WalReader) : Nat → Bool × WalReader
  | 0 => (false, r)
  | fuel + 1 =>
    let n := r.segmentReader.Next
    let e := n.2.err
    if n.1 then (true, { segmentReader := n.2, err := e })
    else if ¬errorsIsO e .eof then (false, { segmentReader := n.2, err := e })
    else
      match OpenSegment fs (SegmentFileName n.2.nextSequenceNumber)
          n.2.nextSequenceNumber with
      | .error _ => (false, { segmentReader := n.2, err := e })
      | .ok nsr => WalReader.NextAux fs { segmentReader := nsr, err := e } fuel

def c2Header0 : Header :=
  { magic := Magic, version := HeaderVersion, entryLengthEncoding := 2,
    entryChecksumType := 1, firstSequenceNumber := 0 }

def c2Header1 : Header :=
  { magic := Magic, version := HeaderVersion, entryLengthEncoding := 2,
    entryChecksumType := 1, firstSequenceNumber := 1 }

def c2Seg0 : List Nat := WriteHeader c2Header0 ++ entryBlob 2 1 [97]

def c2Seg1 : List Nat := WriteHeader c2Header1 ++ entryBlob 2 1 [98]

/-- A directory `d` holding two consecutive segments. -/
def c2FS : FS :=
  [(joinPath "d" (SegmentFileName 0), c2Seg0),
   (joinPath "d" (SegmentFileName 1), c2Seg1)]

/-- The reader after consuming all of segment 0: cursor at the end, next
sequence number 1. -/
def c2Reader : WalReader :=
  { segmentReader :=
      { file := { data := c2Seg0, pos := c2Seg0.length },
        filePath := joinPath "d" (SegmentFileName 0), header := c2Header0,
        offset := c2Seg0.length, nextSequenceNumber := 1,
        fileSize := c2Seg0.length, valueSeq := 0, valueData := [97],
        err := none },
    err := none }

theorem leBytes_length (w n : Nat) : (leBytes w n).length = w := by
  induction w generalizing n with
  | zero => rfl
  | succ w ih => simp [leBytes, ih]

theorem leVal_leBytes (w n : Nat) (h : n < 256 ^ w) : leVal (leBytes w n) = n := by
  induction w generalizing n with
  | zero =>
    simp only [Nat.pow_zero, Nat.lt_one_iff] at h
    simp [leBytes, leVal, h]
  | succ w ih =>
    have hdiv : n / 256 < 256 ^ w := by
      rw [Nat.div_lt_iff_lt_mul (by norm_num)]
      calc n < 256 ^ (w + 1) := h
        _ = 256 ^ w * 256 := by ring
    simp only [leBytes, leVal, ih (n / 256) hdiv]
    omega

theorem leBytes_lt (w n : Nat) : ∀ b ∈ leBytes w n, b < 256 := by
  induction w generalizing n with
  | zero => simp [leBytes]
  | succ w ih =>
    intro b hb
    simp only [leBytes, List.mem_cons] at hb
    rcases hb with rfl | hb
    · exact Nat.mod_lt _ (by norm_num)
    · exact ih (n / 256) b hb

theorem putUvarint_ne_nil (n : Nat) : putUvarint n ≠ [] := by
  unfold putUvarint
  split <;> simp

theorem putUvarint_bytes_lt (n : Nat) : ∀ b ∈ putUvarint n, b < 256 := by
  induction n using Nat.strong_induction_on with
  | _ n ih =>
    unfold putUvarint
    split
    · intro b hb
      simp only [List.mem_singleton] at hb
      omega
    · intro b hb
      simp only [List.mem_cons] at hb
      rcases hb with rfl | hb
      · have := Nat.mod_lt n (y := 128) (by omega)
        omega
      · exact ih (n / 128) (Nat.div_lt_self (by omega) (by omega)) b hb

theorem errorsIs_wrap (s : String) (inner t : GoErr) :
    errorsIs (.wrap s inner) t = (GoErr.wrap "" inner == t || errorsIs inner t) := rfl

theorem errorsIs_join (a b t : GoErr) :
    errorsIs (.join a b) t = (GoErr.join a b == t || errorsIs a t || errorsIs b t) := rfl

theorem xor_lt_two_pow {x y n : Nat} (hx : x < 2 ^ n) (hy : y < 2 ^ n) :
    x ^^^ y < 2 ^ n :=
  Nat.bitwise_lt hx hy

theorem crcRound_lt {poly c w : Nat} (hpoly : poly < 2 ^ w) (hc : c < 2 ^ w) :
    crcRound poly c < 2 ^ w := by
  unfold crcRound
  split
  · exact xor_lt_two_pow (by omega) hpoly
  · omega

theorem crcByte_lt {poly c b w : Nat} (hpoly : poly < 2 ^ w) (hc : c < 2 ^ w)
    (hw : 8 ≤ w) : crcByte poly c b < 2 ^ w := by
  unfold crcByte
  have hb : b % 256 < 2 ^ w := by
    have : (256 : Nat) = 2 ^ 8 := by norm_num
    have h2 : (2 : Nat) ^ 8 ≤ 2 ^ w := Nat.pow_le_pow_right (by omega) hw
    have := Nat.mod_lt b (y := 256) (by omega)
    omega
  have hstart : c ^^^ b % 256 < 2 ^ w := xor_lt_two_pow hc hb
  have hiter : ∀ k x, x < 2 ^ w → (crcRound poly)^[k] x < 2 ^ w := by
    intro k
    induction k with
    | zero => intro x hx; simpa using hx
    | succ k ih =>
      intro x hx
      rw [Function.iterate_succ_apply]
      exact ih _ (crcRound_lt hpoly hx)
  exact hiter 8 _ hstart

theorem crc32_lt (data : List Nat) : crc32 data < 2 ^ 32 := by
  unfold crc32
  have hfold : ∀ (l : List Nat) (c : Nat), c < 2 ^ 32 →
      l.foldl (crcByte crc32Poly) c < 2 ^ 32 := by
    intro l
    induction l with
    | nil => intro c hc; simpa using hc
    | cons b l ih =>
      intro c hc
      exact ih _ (crcByte_lt (by norm_num [crc32Poly]) hc (by norm_num))
  exact xor_lt_two_pow (hfold _ _ (by norm_num)) (by norm_num)

theorem crc64_lt (data : List Nat) : crc64 data < 2 ^ 64 := by
  unfold crc64
  have hfold : ∀ (l : List Nat) (c : Nat), c < 2 ^ 64 →
      l.foldl (crcByte crc64Poly) c < 2 ^ 64 := by
    intro l
    induction l with
    | nil => intro c hc; simpa using hc
    | cons b l ih =>
      intro c hc
      exact ih _ (crcByte_lt (by norm_num [crc64Poly]) hc (by norm_num))
  exact xor_lt_two_pow (hfold _ _ (by norm_num)) (by norm_num)

theorem readFull_ok_append (pre bs rest : List Nat) :
    readFull { data := pre ++ bs ++ rest, pos := pre.length } bs.length =
      (.ok bs, { data := pre ++ bs ++ rest, pos := pre.length + bs.length }) := by
  unfold readFull RFile.remaining
  have hrem : bs.length ≤ (pre ++ bs ++ rest).length - pre.length := by
    simp [List.length_append]
  have hdrop : (pre ++ bs ++ rest).drop pre.length = bs ++ rest := by
    rw [List.append_assoc, List.drop_left]
  have htake : (bs ++ rest).take bs.length = bs := List.take_left bs rest
  simp [hrem, hdrop, htake]

theorem or_shiftLeft_eq_add {x b s : Nat} (hx : x < 2 ^ s) :
    x ||| b <<< s = x + b * 2 ^ s := by
  calc x ||| b <<< s = 2 ^ s * b ||| x := by
        rw [Nat.shiftLeft_eq, Nat.lor_comm, Nat.mul_comm]
    _ = 2 ^ s * b + x := (Nat.mul_add_lt_is_or hx b).symm
    _ = x + b * 2 ^ s := by ring

theorem readUvarintAux_step {x s fuel : Nat} {raw : List Nat} {f f' : RFile}
    {b : Nat} (hb : readByte f = (.ok b, f')) (hge : ¬b < 128) :
    readUvarintAux x s raw f (fuel + 1) =
      readUvarintAux ((x ||| (b % 128) <<< s) % 2 ^ 64) (s + 7) (raw ++ [b]) f' fuel := by
  conv_lhs => unfold readUvarintAux
  rw [hb]
  simp [hge]

theorem readUvarintAux_last {x s fuel : Nat} {raw : List Nat} {f f' : RFile}
    {b : Nat} (hb : readByte f = (.ok b, f')) (hlt : b < 128)
    (hno : ¬(fuel = 0 ∧ 1 < b)) :
    readUvarintAux x s raw f (fuel + 1) =
      (.ok ((x ||| b <<< s) % 2 ^ 64, raw ++ [b]), f') := by
  conv_lhs => unfold readUvarintAux
  rw [hb]
  simp [hlt, hno]

theorem putUvarint_low (m : Nat) (h : m < 128) : putUvarint m = [m] := by
  unfold putUvarint
  simp [h]

theorem putUvarint_high (m : Nat) (h : ¬m < 128) :
    putUvarint m = (m % 128 + 128) :: putUvarint (m / 128) := by
  conv_lhs => unfold putUvarint
  simp [h]

theorem readUvarintAux_putUvarint (fuel : Nat) :
    ∀ (m x s : Nat) (raw : List Nat) (D rest : List Nat) (p : Nat),
      D.drop p = putUvarint m ++ rest →
      m < 2 ^ (7 * fuel + 1) →
      x < 2 ^ s →
      s + 7 * fuel + 1 ≤ 64 →
      readUvarintAux x s raw { data := D, pos := p } (fuel + 1) =
        (.ok (x + m * 2 ^ s, raw ++ putUvarint m),
         { data := D, pos := p + (putUvarint m).length }) := by
  induction fuel with
  | zero =>
    intro m x s raw D rest p hD hm hx hs
    have hm2 : m < 2 := by simpa using hm
    have hput : putUvarint m = [m] := putUvarint_low m (by omega)
    rw [hput] at hD
    have hbyte : readByte { data := D, pos := p } =
        (.ok m, { data := D, pos := p + 1 }) := by
      unfold readByte
      rw [hD]
      simp [Nat.mod_eq_of_lt (show m < 256 by omega)]
    have hlt : x + m * 2 ^ s < 2 ^ 64 := by
      have h1 : (m + 1) * 2 ^ s ≤ 2 * 2 ^ s := by
        have : m + 1 ≤ 2 := by omega
        exact Nat.mul_le_mul_right _ this
      have h2 : (2 : Nat) * 2 ^ s ≤ 2 ^ 64 := by
        calc (2 : Nat) * 2 ^ s = 2 ^ (s + 1) := by ring
          _ ≤ 2 ^ 64 := Nat.pow_le_pow_right (by omega) (by omega)
      have h3 : x + m * 2 ^ s < (m + 1) * 2 ^ s := by nlinarith
      omega
    rw [readUvarintAux_last hbyte (by omega) (by omega),
      or_shiftLeft_eq_add hx, Nat.mod_eq_of_lt hlt, hput]
    simp
  | succ g ih =>
    intro m x s raw D rest p hD hm hx hs
    by_cases hlow : m < 128
    · have hput : putUvarint m = [m] := putUvarint_low m hlow
      rw [hput] at hD
      have hbyte : readByte { data := D, pos := p } =
          (.ok m, { data := D, pos := p + 1 }) := by
        unfold readByte
        rw [hD]
        simp [Nat.mod_eq_of_lt (show m < 256 by omega)]
      have hlt : x + m * 2 ^ s < 2 ^ 64 := by
        have h1 : (m + 1) * 2 ^ s ≤ 128 * 2 ^ s := by
          have : m + 1 ≤ 128 := by omega
          exact Nat.mul_le_mul_right _ this
        have h2 : (128 : Nat) * 2 ^ s ≤ 2 ^ 64 := by
          calc (128 : Nat) * 2 ^ s = 2 ^ (s + 7) := by ring
            _ ≤ 2 ^ 64 := Nat.pow_le_pow_right (by omega) (by omega)
        have h3 : x + m * 2 ^ s < (m + 1) * 2 ^ s := by nlinarith
        omega
      rw [readUvarintAux_last hbyte hlow (by omega),
        or_shiftLeft_eq_add hx, Nat.mod_eq_of_lt hlt, hput]
      simp
    · have hput : putUvarint m = (m % 128 + 128) :: putUvarint (m / 128) :=
        putUvarint_high m hlow
      rw [hput] at hD
      have hb256 : m % 128 + 128 < 256 := by
        have := Nat.mod_lt m (y := 128) (by omega)
        omega
      have hbyte : readByte { data := D, pos := p } =
          (.ok (m % 128 + 128), { data := D, pos := p + 1 }) := by
        unfold readByte
        rw [hD]
        simp [Nat.mod_eq_of_lt hb256]
      have hxadd : x + m % 128 * 2 ^ s < 2 ^ (s + 7) := by
        have h1 : x + m % 128 * 2 ^ s < (m % 128 + 1) * 2 ^ s := by nlinarith
        have h2 : (m % 128 + 1) * 2 ^ s ≤ 128 * 2 ^ s := by
          have := Nat.mod_lt m (y := 128) (by omega)
          exact Nat.mul_le_mul_right _ (by omega)
        have h3 : (128 : Nat) * 2 ^ s = 2 ^ (s + 7) := by ring
        omega
      have hxadd64 : x + m % 128 * 2 ^ s < 2 ^ 64 := by
        have : (2 : Nat) ^ (s + 7) ≤ 2 ^ 64 := Nat.pow_le_pow_right (by omega) (by omega)
        omega
      have hbmod : (m % 128 + 128) % 128 = m % 128 := by omega
      have hdrop : D.drop (p + 1) = putUvarint (m / 128) ++ rest := by
        have h1 := List.drop_drop 1 p D
        rw [hD] at h1
        simpa using h1.symm
      have hdiv : m / 128 < 2 ^ (7 * g + 1) := by
        rw [Nat.div_lt_iff_lt_mul (by omega)]
        calc m < 2 ^ (7 * (g + 1) + 1) := hm
          _ = 2 ^ (7 * g + 1) * 128 := by ring
      have hrec := ih (m / 128) (x + m % 128 * 2 ^ s) (s + 7) (raw ++ [m % 128 + 128])
        D rest (p + 1) hdrop hdiv hxadd (by omega)
      rw [readUvarintAux_step hbyte (by omega), hbmod, or_shiftLeft_eq_add hx,
        Nat.mod_eq_of_lt hxadd64, hrec, hput]
      have hsplit : x + m % 128 * 2 ^ s + m / 128 * 2 ^ (s + 7) = x + m * 2 ^ s := by
        have hexp : (2 : Nat) ^ (s + 7) = 2 ^ s * 128 := by ring
        have hmd := Nat.mod_add_div m 128
        nlinarith
      have hlist : raw ++ [m % 128 + 128] ++ putUvarint (m / 128) =
          raw ++ (m % 128 + 128) :: putUvarint (m / 128) := by simp
      have hpos : p + 1 + (putUvarint (m / 128)).length =
          p + ((m % 128 + 128) :: putUvarint (m / 128)).length := by
        simp only [List.length_cons]
        omega
      rw [hsplit, hlist, hpos]

/-- `ReadUvarint` decodes what `binary.PutUvarint` encoded and consumes
exactly its bytes. -/
theorem ReadUvarint_putUvarint (n : Nat) (hn : n < 2 ^ 64) (D rest : List Nat)
    (p : Nat) (hD : D.drop p = putUvarint n ++ rest) :
    ReadUvarint { data := D, pos := p } =
      (.ok (n, putUvarint n), { data := D, pos := p + (putUvarint n).length }) := by
  have h := readUvarintAux_putUvarint 9 n 0 0 [] D rest p hD (by simpa using hn)
    (by simp) (by omega)
  simpa [ReadUvarint] using h

/-! Roundtrip facts for the codecs. -/

theorem readLengthFixed_ok (w : Nat) (pre bs rest : List Nat)
    (hlen : bs.length = w) :
    readLengthFixed w { data := pre ++ bs ++ rest, pos := pre.length } =
      (.ok (leVal bs, bs), { data := pre ++ bs ++ rest, pos := pre.length + w }) := by
  unfold readLengthFixed
  rw [← hlen, readFull_ok_append]

theorem WriteEntryLength_eq_ok (encCode : Nat) (henc : encCode ∈ [1, 2, 3, 4])
    (n : Nat) (hn : n ≤ maxLengthValue encCode) :
    WriteEntryLength encCode n = .ok (encodedLength encCode n) := by
  fin_cases henc
  · simp only [WriteEntryLength, encodedLength, maxLengthValue] at hn ⊢
    rw [if_neg (by omega)]
  · simp only [WriteEntryLength, encodedLength, maxLengthValue] at hn ⊢
    rw [if_neg (by omega)]
  · rfl
  · rfl

/-- Decoding inverts encoding for every supported length encoding: reading
from a file whose bytes continue with the encoded length yields the length
back, the raw encoded bytes, and the cursor advanced past them. -/
theorem ReadEntryLength_WriteEntryLength (encCode : Nat)
    (henc : encCode ∈ [1, 2, 3, 4]) (n : Nat) (hn : n ≤ maxLengthValue encCode)
    (bs : List Nat) (hbs : WriteEntryLength encCode n = .ok bs)
    (pre rest : List Nat) :
    ReadEntryLength encCode { data := pre ++ bs ++ rest, pos := pre.length } =
      (.ok (n, bs), { data := pre ++ bs ++ rest, pos := pre.length + bs.length }) := by
  fin_cases henc
  · simp only [WriteEntryLength, maxLengthValue] at hbs hn
    rw [if_neg (by omega)] at hbs
    cases hbs
    rw [ReadEntryLength, readLengthFixed_ok 2 pre _ rest (leBytes_length 2 n),
      leVal_leBytes 2 n (by norm_num; omega), leBytes_length]
  · simp only [WriteEntryLength, maxLengthValue] at hbs hn
    rw [if_neg (by omega)] at hbs
    cases hbs
    rw [ReadEntryLength, readLengthFixed_ok 4 pre _ rest (leBytes_length 4 n),
      leVal_leBytes 4 n (by norm_num; omega), leBytes_length]
  · simp only [WriteEntryLength, maxLengthValue] at hbs hn
    cases hbs
    rw [ReadEntryLength, readLengthFixed_ok 8 pre _ rest (leBytes_length 8 n),
      leVal_leBytes 8 n (by norm_num; omega), leBytes_length]
  · simp only [WriteEntryLength, maxLengthValue] at hbs hn
    cases hbs
    rw [ReadEntryLength]
    have hdrop : (pre ++ putUvarint n ++ rest).drop pre.length = putUvarint n ++ rest := by
      rw [List.append_assoc, List.drop_left]
    exact ReadUvarint_putUvarint n (by norm_num; omega) _ rest pre.length hdrop

theorem readChecksumFixed_ok (w : Nat) (want : Nat)
    (pre bs rest : List Nat) (hlen : bs.length = w) (hval : leVal bs = want) :
    readChecksumFixed w want { data := pre ++ bs ++ rest, pos := pre.length } =
      (.ok w, { data := pre ++ bs ++ rest, pos := pre.length + w }) := by
  unfold readChecksumFixed
  rw [← hlen, readFull_ok_append]
  simp [hlen, hval]

/-- Checksum verification succeeds on what the checksum writer emitted. -/
theorem ReadEntryChecksum_WriteEntryChecksum (ctCode : Nat)
    (hct : ctCode ∈ [1, 2]) (data : List Nat) (bs : List Nat)
    (hbs : WriteEntryChecksum ctCode data = .ok bs) (pre rest : List Nat) :
    ReadEntryChecksum ctCode data { data := pre ++ bs ++ rest, pos := pre.length } =
      (.ok bs.length,
       { data := pre ++ bs ++ rest, pos := pre.length + bs.length }) := by
  fin_cases hct
  · simp only [WriteEntryChecksum] at hbs
    cases hbs
    rw [ReadEntryChecksum, leBytes_length,
      readChecksumFixed_ok 4 _ pre _ rest (leBytes_length 4 _)
        (leVal_leBytes 4 _ (by have := crc32_lt data; norm_num; omega))]
  · simp only [WriteEntryChecksum] at hbs
    cases hbs
    rw [ReadEntryChecksum, leBytes_length,
      readChecksumFixed_ok 8 _ pre _ rest (leBytes_length 8 _)
        (leVal_leBytes 8 _ (by have := crc64_lt data; norm_num; omega))]

theorem WriteEntryChecksum_eq_ok (ctCode : Nat) (hct : ctCode ∈ [1, 2])
    (data : List Nat) :
    WriteEntryChecksum ctCode data = .ok (encodedChecksum ctCode data) := by
  fin_cases hct <;> rfl

theorem AppendEntry_ok (w : SegmentWriter) (payload : List Nat)
    (henc : w.header.entryLengthEncoding ∈ [1, 2, 3, 4])
    (hct : w.header.entryChecksumType ∈ [1, 2])
    (hlen : payload.length ≤ maxLengthValue w.header.entryLengthEncoding)
    (hok : w.fileOk = true) :
    w.AppendEntry payload =
      (.ok w.nextSequenceNumber,
       { w with
         fileData := writeAt w.fileData w.offset
           (entryBlob w.header.entryLengthEncoding w.header.entryChecksumType payload),
         offset := w.offset +
           (entryBlob w.header.entryLengthEncoding w.header.entryChecksumType payload).length,
         nextSequenceNumber := w.nextSequenceNumber + 1 }) := by
  simp only [SegmentWriter.AppendEntry, WriteEntryLength_eq_ok _ henc _ hlen,
    WriteEntryChecksum_eq_ok _ hct, hok]
  simp [entryBlob]

theorem Next_readback (h : Header) (seq : Nat) (payload : List Nat)
    (henc : h.entryLengthEncoding ∈ [1, 2, 3, 4])
    (hct : h.entryChecksumType ∈ [1, 2])
    (hlen : payload.length ≤ maxLengthValue h.entryLengthEncoding) :
    SegmentReader.Next
        (mkReadbackReader h seq
          (entryBlob h.entryLengthEncoding h.entryChecksumType payload)) =
      (true,
       { mkReadbackReader h seq
           (entryBlob h.entryLengthEncoding h.entryChecksumType payload) with
         file := { data := entryBlob h.entryLengthEncoding h.entryChecksumType payload,
                   pos := (entryBlob h.entryLengthEncoding h.entryChecksumType payload).length },
         valueData := payload,
         valueSeq := seq,
         offset := (entryBlob h.entryLengthEncoding h.entryChecksumType payload).length,
         nextSequenceNumber := seq + 1,
         err := none }) := by
  set lenB := encodedLength h.entryLengthEncoding payload.length with hlenB
  set chkB := encodedChecksum h.entryChecksumType (lenB ++ payload) with hchkB
  have hblob : entryBlob h.entryLengthEncoding h.entryChecksumType payload =
      lenB ++ payload ++ chkB := rfl
  have hwl : WriteEntryLength h.entryLengthEncoding payload.length = .ok lenB :=
    WriteEntryLength_eq_ok _ henc _ hlen
  have hread1 : ReadEntryLength h.entryLengthEncoding
      { data := ([] : List Nat) ++ lenB ++ (payload ++ chkB), pos := ([] : List Nat).length } =
      (.ok (payload.length, lenB),
       { data := ([] : List Nat) ++ lenB ++ (payload ++ chkB),
         pos := ([] : List Nat).length + lenB.length }) :=
    ReadEntryLength_WriteEntryLength _ henc _ hlen lenB hwl [] (payload ++ chkB)
  have hdata : ([] : List Nat) ++ lenB ++ (payload ++ chkB) = lenB ++ payload ++ chkB := by
    simp
  rw [hdata] at hread1
  simp only [List.length_nil, Nat.zero_add] at hread1
  have hread2 : readFull { data := lenB ++ payload ++ chkB, pos := lenB.length }
      payload.length =
      (.ok payload,
       { data := lenB ++ payload ++ chkB, pos := lenB.length + payload.length }) :=
    readFull_ok_append lenB payload chkB
  have hwc : WriteEntryChecksum h.entryChecksumType (lenB ++ payload) = .ok chkB :=
    WriteEntryChecksum_eq_ok _ hct _
  have hread3 : ReadEntryChecksum h.entryChecksumType (lenB ++ payload)
      { data := (lenB ++ payload) ++ chkB ++ ([] : List Nat),
        pos := (lenB ++ payload).length } =
      (.ok chkB.length,
       { data := (lenB ++ payload) ++ chkB ++ ([] : List Nat),
         pos := (lenB ++ payload).length + chkB.length }) :=
    ReadEntryChecksum_WriteEntryChecksum _ hct _ chkB hwc (lenB ++ payload) []
  simp only [List.append_nil] at hread3
  unfold SegmentReader.Next SegmentReader.next
  rw [hblob]
  simp only [mkReadbackReader, hread1]
  rw [if_neg (by
    simp only [List.length_append]
    push_cast
    omega)]
  have hpos2 : lenB.length + payload.length = (lenB ++ payload).length := by
    simp [List.length_append]
  simp only [hread2, hpos2, hread3]
  simp [List.length_append]
  omega

/-- C1: for every supported entry length encoding and entry checksum type,
and every payload whose length is within the encoding's maximum (length 0
included), appending the payload with `SegmentWriter.AppendEntry` and then
reading the written bytes back with `SegmentReader.Next` yields `true`,
with a value whose `Data` is bit-identical to the payload supplied and
whose `SequenceNumber` equals the sequence number returned by
`AppendEntry`. -/
theorem c1_append_then_read_roundtrip (w : SegmentWriter) (payload : List Nat)
    (henc : w.header.entryLengthEncoding ∈ [1, 2, 3, 4])
    (hct : w.header.entryChecksumType ∈ [1, 2])
    (hlen : payload.length ≤ maxLengthValue w.header.entryLengthEncoding)
    (hok : w.fileOk = true) :
    ∃ seq blob,
      (w.AppendEntry payload).1 = .ok seq ∧
      (w.AppendEntry payload).2.fileData = writeAt w.fileData w.offset blob ∧
      (SegmentReader.Next (mkReadbackReader w.header seq blob)).1 = true ∧
      (SegmentReader.Next (mkReadbackReader w.header seq blob)).2.valueData = payload ∧
      (SegmentReader.Next (mkReadbackReader w.header seq blob)).2.valueSeq = seq := by
  have ha := AppendEntry_ok w payload henc hct hlen hok
  have hr := Next_readback w.header w.nextSequenceNumber payload henc hct hlen
  exact ⟨w.nextSequenceNumber,
    entryBlob w.header.entryLengthEncoding w.header.entryChecksumType payload,
    by rw [ha], by rw [ha], by rw [hr], by rw [hr], by rw [hr]⟩

theorem c1_append_then_read_roundtrip_witness :
    (c1WitnessWriter.header.entryLengthEncoding ∈ [1, 2, 3, 4]) ∧
    (c1WitnessWriter.header.entryChecksumType ∈ [1, 2]) ∧
    ([42, 7].length ≤ maxLengthValue c1WitnessWriter.header.entryLengthEncoding) ∧
    c1WitnessWriter.fileOk = true ∧
    (∃ seq blob,
      (c1WitnessWriter.AppendEntry [42, 7]).1 = .ok seq ∧
      (c1WitnessWriter.AppendEntry [42, 7]).2.fileData =
        writeAt c1WitnessWriter.fileData c1WitnessWriter.offset blob ∧
      (SegmentReader.Next (mkReadbackReader c1WitnessWriter.header seq blob)).1 = true ∧
      (SegmentReader.Next (mkReadbackReader c1WitnessWriter.header seq blob)).2.valueData
        = [42, 7] ∧
      (SegmentReader.Next (mkReadbackReader c1WitnessWriter.header seq blob)).2.valueSeq
        = seq) :=
  ⟨by decide, by decide, by decide, rfl,
    c1_append_then_read_roundtrip c1WitnessWriter [42, 7]
      (by decide) (by decide) (by decide) rfl⟩

/-- C8: for every entry produced by `SegmentWriter.AppendEntry`, the
checksum bytes stored after the payload equal the CRC (CRC-32/IEEE or
CRC-64/ISO per the segment's checksum type, serialized in 4 or 8 bytes)
computed over the encoded length bytes concatenated with the payload
bytes, not over the payload alone. -/
theorem c8_checksum_covers_length_and_payload (w : SegmentWriter)
    (payload : List Nat)
    (henc : w.header.entryLengthEncoding ∈ [1, 2, 3, 4])
    (hct : w.header.entryChecksumType ∈ [1, 2])
    (hlen : payload.length ≤ maxLengthValue w.header.entryLengthEncoding)
    (hok : w.fileOk = true) :
    ∃ lenB, WriteEntryLength w.header.entryLengthEncoding payload.length = .ok lenB ∧
      (w.header.entryChecksumType = 1 →
        (w.AppendEntry payload).2.fileData =
          writeAt w.fileData w.offset
            (lenB ++ payload ++ leBytes 4 (crc32 (lenB ++ payload)))) ∧
      (w.header.entryChecksumType = 2 →
        (w.AppendEntry payload).2.fileData =
          writeAt w.fileData w.offset
            (lenB ++ payload ++ leBytes 8 (crc64 (lenB ++ payload)))) := by
  refine ⟨encodedLength w.header.entryLengthEncoding payload.length,
    WriteEntryLength_eq_ok _ henc _ hlen, ?_, ?_⟩
  · intro h1
    rw [AppendEntry_ok w payload henc hct hlen hok]
    simp [entryBlob, encodedChecksum, h1]
  · intro h2
    rw [AppendEntry_ok w payload henc hct hlen hok]
    simp [entryBlob, encodedChecksum, h2]

theorem c8_checksum_covers_length_and_payload_witness :
    (c8WitnessWriter.header.entryLengthEncoding ∈ [1, 2, 3, 4]) ∧
    (c8WitnessWriter.header.entryChecksumType ∈ [1, 2]) ∧
    ([9].length ≤ maxLengthValue c8WitnessWriter.header.entryLengthEncoding) ∧
    c8WitnessWriter.fileOk = true ∧
    (∃ lenB, WriteEntryLength c8WitnessWriter.header.entryLengthEncoding
        [9].length = .ok lenB ∧
      (c8WitnessWriter.header.entryChecksumType = 1 →
        (c8WitnessWriter.AppendEntry [9]).2.fileData =
          writeAt c8WitnessWriter.fileData c8WitnessWriter.offset
            (lenB ++ [9] ++ leBytes 4 (crc32 (lenB ++ [9])))) ∧
      (c8WitnessWriter.header.entryChecksumType = 2 →
        (c8WitnessWriter.AppendEntry [9]).2.fileData =
          writeAt c8WitnessWriter.fileData c8WitnessWriter.offset
            (lenB ++ [9] ++ leBytes 8 (crc64 (lenB ++ [9]))))) :=
  ⟨by decide, by decide, by decide, rfl,
    c8_checksum_covers_length_and_payload c8WitnessWriter [9]
      (by decide) (by decide) (by decide) rfl⟩

/-- C10: whenever `SegmentWriter.AppendEntry` returns an error
(length-encoding overflow or failure of the single file write), the
writer's offset and next sequence number (and its file) are unchanged;
both advance only after the whole encoded blob has been handed to the file
in one successful write call. -/
theorem c10_append_error_preserves_state (w : SegmentWriter) (payload : List Nat) :
    (∀ e, (w.AppendEntry payload).1 = .error e →
      (w.AppendEntry payload).2.offset = w.offset ∧
      (w.AppendEntry payload).2.nextSequenceNumber = w.nextSequenceNumber ∧
      (w.AppendEntry payload).2.fileData = w.fileData) ∧
    (∀ s, (w.AppendEntry payload).1 = .ok s →
      ∃ blob, (w.AppendEntry payload).2.fileData = writeAt w.fileData w.offset blob ∧
        (w.AppendEntry payload).2.offset = w.offset + blob.length ∧
        (w.AppendEntry payload).2.nextSequenceNumber = w.nextSequenceNumber + 1 ∧
        s = w.nextSequenceNumber) := by
  cases hwl : WriteEntryLength w.header.entryLengthEncoding payload.length with
  | error e => simp [SegmentWriter.AppendEntry, hwl]
  | ok lenB =>
    cases hwc : WriteEntryChecksum w.header.entryChecksumType (lenB ++ payload) with
    | error e => simp [SegmentWriter.AppendEntry, hwl, hwc]
    | ok chkB =>
      cases hok : w.fileOk with
      | false => simp [SegmentWriter.AppendEntry, hwl, hwc, hok]
      | true =>
        simp only [SegmentWriter.AppendEntry, hwl, hwc, hok, if_true]
        refine ⟨fun e he => by simp at he, fun s hs => ?_⟩
        simp only [Except.ok.injEq] at hs
        exact ⟨lenB ++ payload ++ chkB, by simp, by simp [List.length_append],
          by simp, hs.symm⟩

theorem c10_append_error_preserves_state_witness :
    ((c10WitnessWriter.AppendEntry [5]).1 =
      .error (.wrap "writing WAL entry to segment file" (.errMsg "write error"))) ∧
    (c10WitnessWriter.AppendEntry [5]).2.offset = c10WitnessWriter.offset ∧
    (c10WitnessWriter.AppendEntry [5]).2.nextSequenceNumber =
      c10WitnessWriter.nextSequenceNumber ∧
    (c10WitnessWriter.AppendEntry [5]).2.fileData = c10WitnessWriter.fileData :=
  ⟨rfl,
    (c10_append_error_preserves_state c10WitnessWriter [5]).1
      (.wrap "writing WAL entry to segment file" (.errMsg "write error")) rfl⟩

theorem errorsIs_entryNone_self : errorsIs .entryNone .entryNone = true := rfl

theorem errorsIs_join_entryNone (e : GoErr) :
    errorsIs (.join .entryNone e) .entryNone = true := by
  simp [errorsIs]

/-- C5: whenever `SegmentReader.Next` returns `false`, the reader's offset
and next sequence number are unchanged, the file position is seeked back to
that offset, and the stored error wraps `ErrEntryNone`; `ToWriter` succeeds
exactly when the stored error wraps `ErrEntryNone`, and then hands the file
over to a segment writer whose offset and next sequence number equal the
preserved values, leaving the zero reader behind. -/
theorem c5_failed_next_preserves_cursor_and_towriter :
    (∀ (r r' : SegmentReader), SegmentReader.Next r = (false, r') →
      r'.offset = r.offset ∧
      r'.nextSequenceNumber = r.nextSequenceNumber ∧
      r'.file.pos = r.offset ∧
      errorsIsO r'.err .entryNone = true) ∧
    (∀ (r : SegmentReader) (w : SegmentWriter) (r0 : SegmentReader),
      SegmentReader.ToWriter r = .ok (w, r0) →
      errorsIsO r.err .entryNone = true ∧
      w.offset = r.offset ∧
      w.nextSequenceNumber = r.nextSequenceNumber ∧
      w.fileData = r.file.data ∧
      r0 = zeroSegmentReader) ∧
    (∀ r : SegmentReader, errorsIsO r.err .entryNone = true →
      SegmentReader.ToWriter r =
        .ok ({ fileData := r.file.data, fileOk := true, filePath := r.filePath,
               header := r.header, offset := r.offset,
               nextSequenceNumber := r.nextSequenceNumber },
             zeroSegmentReader)) := by
  refine ⟨?_, ?_, ?_⟩
  · intro r r' hnext
    unfold SegmentReader.Next at hnext
    cases hn : r.next with
    | error e =>
      rw [hn] at hnext
      cases hnext
      exact ⟨rfl, rfl, rfl, errorsIs_join_entryNone e⟩
    | ok rr =>
      rw [hn] at hnext
      cases hnext
  · intro r w r0 hto
    unfold SegmentReader.ToWriter at hto
    by_cases h : errorsIsO r.err .entryNone = true
    · rw [if_neg (by simp [h])] at hto
      cases hto
      exact ⟨h, rfl, rfl, rfl, rfl⟩
    · rw [if_pos (by simpa using h)] at hto
      cases hto
  · intro r h
    unfold SegmentReader.ToWriter
    rw [if_neg (by simp [h])]

theorem c5_failed_next_preserves_cursor_and_towriter_witness :
    (SegmentReader.Next c5WitnessReader =
      (false, (SegmentReader.Next c5WitnessReader).2) ∧
      (SegmentReader.Next c5WitnessReader).2.offset = c5WitnessReader.offset ∧
      (SegmentReader.Next c5WitnessReader).2.nextSequenceNumber =
        c5WitnessReader.nextSequenceNumber ∧
      (SegmentReader.Next c5WitnessReader).2.file.pos = c5WitnessReader.offset ∧
      errorsIsO (SegmentReader.Next c5WitnessReader).2.err .entryNone = true) ∧
    (errorsIsO (SegmentReader.Next c5WitnessReader).2.err .entryNone = true ∧
      SegmentReader.ToWriter (SegmentReader.Next c5WitnessReader).2 =
        .ok ({ fileData := (SegmentReader.Next c5WitnessReader).2.file.data,
               fileOk := true,
               filePath := (SegmentReader.Next c5WitnessReader).2.filePath,
               header := (SegmentReader.Next c5WitnessReader).2.header,
               offset := (SegmentReader.Next c5WitnessReader).2.offset,
               nextSequenceNumber :=
                 (SegmentReader.Next c5WitnessReader).2.nextSequenceNumber },
             zeroSegmentReader)) := by
  have h1 := (c5_failed_next_preserves_cursor_and_towriter).1 c5WitnessReader
    (SegmentReader.Next c5WitnessReader).2 (by rfl)
  have h3 := (c5_failed_next_preserves_cursor_and_towriter).2.2
    (SegmentReader.Next c5WitnessReader).2 h1.2.2.2
  exact ⟨⟨by rfl, h1.1, h1.2.1, h1.2.2.1, h1.2.2.2⟩, ⟨h1.2.2.2, h3⟩⟩

theorem readUvarintAux_eofByte {f f' : RFile} {x s : Nat} {raw : List Nat}
    (hb : readByte f = (.error .eof, f')) :
    readUvarintAux x s raw f 10 = (.error .eof, f') := by
  show readUvarintAux x s raw f (9 + 1) = _
  conv_lhs => unfold readUvarintAux
  rw [hb]
  simp

/-- C4 (amended): the stored error of a failed `Next` satisfies the EOF
check exactly when one of the three reads of the entry hit a clean
end-of-file having consumed none of its field: the length decoder on its
very first byte, the payload read, or the checksum read.  In particular a
reader whose cursor stands at the exact end of the data (with a supported
length encoding) fails with an EOF-satisfying error; but a file truncated
exactly after the length prefix or after the payload also satisfies the
EOF check, which the unamended claim excluded. -/
theorem c4_eof_characterization :
    (∀ r : SegmentReader, r.header.entryLengthEncoding ∈ [1, 2, 3, 4] →
      r.file.pos = r.file.data.length →
      (SegmentReader.Next r).1 = false ∧
      errorsIsO (SegmentReader.Next r).2.err .eof = true) ∧
    (∀ (r r' : SegmentReader), SegmentReader.Next r = (false, r') →
      (errorsIsO r'.err .eof = true ↔
        (∃ e f', ReadEntryLength r.header.entryLengthEncoding r.file =
            (.error e, f') ∧ errorsIs e .eof = true) ∨
        (∃ len raw f1 e f2,
          ReadEntryLength r.header.entryLengthEncoding r.file =
            (.ok (len, raw), f1) ∧
          ¬((r.fileSize : Int) - (r.offset : Int) < (len : Int)) ∧
          readFull f1 len = (.error e, f2) ∧ errorsIs e .eof = true) ∨
        (∃ len raw f1 payload f2 e f3,
          ReadEntryLength r.header.entryLengthEncoding r.file =
            (.ok (len, raw), f1) ∧
          ¬((r.fileSize : Int) - (r.offset : Int) < (len : Int)) ∧
          readFull f1 len = (.ok payload, f2) ∧
          ReadEntryChecksum r.header.entryChecksumType (raw ++ payload) f2 =
            (.error e, f3) ∧ errorsIs e .eof = true))) := by
  constructor
  · intro r henc hend
    have hdrop : r.file.data.drop r.file.pos = [] := by
      rw [hend, List.drop_length]
    have hrem : r.file.remaining = 0 := by
      unfold RFile.remaining
      omega
    have hlen : ∀ k, k ≠ 0 → readFull r.file k = (.error .eof, r.file) := by
      intro k hk
      unfold readFull
      rw [if_neg (by omega), if_pos hrem]
    have henc' : r.header.entryLengthEncoding = 1 ∨ r.header.entryLengthEncoding = 2 ∨
        r.header.entryLengthEncoding = 3 ∨ r.header.entryLengthEncoding = 4 := by
      simpa using henc
    have hbyte : readByte r.file = (.error .eof, r.file) := by
      unfold readByte
      rw [hdrop]
    have hread : ∃ e f', ReadEntryLength r.header.entryLengthEncoding r.file =
        (.error e, f') ∧ errorsIs e .eof = true := by
      rcases henc' with h | h | h | h
      · exact ⟨.wrap "reading WAL entry length" .eof, r.file,
          by rw [h]; simp [ReadEntryLength, readLengthFixed, hlen 2 (by omega)],
          by simp [errorsIs]⟩
      · exact ⟨.wrap "reading WAL entry length" .eof, r.file,
          by rw [h]; simp [ReadEntryLength, readLengthFixed, hlen 4 (by omega)],
          by simp [errorsIs]⟩
      · exact ⟨.wrap "reading WAL entry length" .eof, r.file,
          by rw [h]; simp [ReadEntryLength, readLengthFixed, hlen 8 (by omega)],
          by simp [errorsIs]⟩
      · refine ⟨.eof, r.file, ?_, by simp [errorsIs]⟩
        rw [h]
        simp only [ReadEntryLength, ReadUvarint]
        rw [readUvarintAux_eofByte hbyte]
    obtain ⟨e, f', hre, hiseof⟩ := hread
    unfold SegmentReader.Next SegmentReader.next
    rw [hre]
    refine ⟨rfl, ?_⟩
    simp [errorsIsO, errorsIs, hiseof]
  · intro r r' hnext
    unfold SegmentReader.Next at hnext
    cases hn : r.next with
    | ok rr =>
      rw [hn] at hnext
      cases hnext
    | error e =>
      rw [hn] at hnext
      cases hnext
      unfold SegmentReader.next at hn
      split at hn
      · rename_i elen fdisc heq
        cases hn
        constructor
        · intro hiseof
          exact .inl ⟨e, fdisc, heq, by simpa [errorsIsO, errorsIs] using hiseof⟩
        · rintro (⟨e2, f2, heq2, hiseof⟩ | ⟨l2, r2, f2, e2, f3, heq2, hs, hrf, hiseof⟩ |
            ⟨l2, r2, f2, p2, f3, e2, f4, heq2, hs, hrf, hrc, hiseof⟩) <;>
            rw [heq] at heq2 <;> cases heq2
          simpa [errorsIsO, errorsIs] using hiseof
      · rename_i len raw f1 heq
        split at hn
        · rename_i hc
          cases hn
          constructor
          · intro hiseof
            exfalso
            simp [errorsIsO, errorsIs] at hiseof
          · rintro (⟨e2, f2, heq2, hiseof⟩ | ⟨l2, r2, f2, e2, f3, heq2, hs, hrf, hiseof⟩ |
              ⟨l2, r2, f2, p2, f3, e2, f4, heq2, hs, hrf, hrc, hiseof⟩) <;>
              rw [heq] at heq2 <;> cases heq2
            · exact absurd hc hs
            · exact absurd hc hs
        · rename_i hc
          split at hn
          · rename_i epay f2disc hrfeq
            cases hn
            constructor
            · intro hiseof
              exact .inr (.inl ⟨len, raw, f1, epay, f2disc, heq, hc, hrfeq,
                by simpa [errorsIsO, errorsIs] using hiseof⟩)
            · rintro (⟨e2, f2, heq2, hiseof⟩ | ⟨l2, r2, f2, e2, f3, heq2, hs, hrf, hiseof⟩ |
                ⟨l2, r2, f2, p2, f3, e2, f4, heq2, hs, hrf, hrc, hiseof⟩) <;>
                rw [heq] at heq2 <;> cases heq2
              · rw [hrfeq] at hrf
                cases hrf
                simpa [errorsIsO, errorsIs] using hiseof
              · rw [hrfeq] at hrf
                cases hrf
          · rename_i payload f2 hrfeq
            split at hn
            · rename_i echk f3disc hrceq
              cases hn
              constructor
              · intro hiseof
                exact .inr (.inr ⟨len, raw, f1, payload, f2, e, f3disc,
                  heq, hc, hrfeq, hrceq,
                  by simpa [errorsIsO, errorsIs] using hiseof⟩)
              · rintro (⟨e2, f2x, heq2, hiseof⟩ |
                  ⟨l2, r2, f2x, e2, f3, heq2, hs, hrf, hiseof⟩ |
                  ⟨l2, r2, f2x, p2, f3, e2, f4, heq2, hs, hrf, hrc, hiseof⟩) <;>
                  rw [heq] at heq2 <;> cases heq2
                · rw [hrfeq] at hrf
                  cases hrf
                · rw [hrfeq] at hrf
                  cases hrf
                  rw [hrceq] at hrc
                  cases hrc
                  simpa [errorsIsO, errorsIs] using hiseof
            · rename_i cb f3disc hrceq
              cases hn

/-- C4 as frozen is false: on `c4Reader` the length decoder succeeds (no
EOF on its first byte, the cursor is not at the end of the data) and the
failure is a short payload read, yet the stored error satisfies the EOF
check. -/
theorem c4_counterexample :
    (ReadEntryLength c4Reader.header.entryLengthEncoding c4Reader.file).1 =
      .ok (1, [1, 0]) ∧
    c4Reader.file.pos ≠ c4Reader.file.data.length ∧
    (SegmentReader.Next c4Reader).1 = false ∧
    errorsIsO (SegmentReader.Next c4Reader).2.err .eof = true := by
  refine ⟨rfl, by decide, rfl, by decide⟩

theorem c4_eof_characterization_witness :
    ((c5WitnessReader.header.entryLengthEncoding ∈ [1, 2, 3, 4]) ∧
      c5WitnessReader.file.pos = c5WitnessReader.file.data.length ∧
      ((SegmentReader.Next c5WitnessReader).1 = false ∧
        errorsIsO (SegmentReader.Next c5WitnessReader).2.err .eof = true)) ∧
    (errorsIsO (SegmentReader.Next c4Reader).2.err .eof = true ↔
      (∃ e f', ReadEntryLength c4Reader.header.entryLengthEncoding c4Reader.file =
          (.error e, f') ∧ errorsIs e .eof = true) ∨
      (∃ len raw f1 e f2,
        ReadEntryLength c4Reader.header.entryLengthEncoding c4Reader.file =
          (.ok (len, raw), f1) ∧
        ¬((c4Reader.fileSize : Int) - (c4Reader.offset : Int) < (len : Int)) ∧
        readFull f1 len = (.error e, f2) ∧ errorsIs e .eof = true) ∨
      (∃ len raw f1 payload f2 e f3,
        ReadEntryLength c4Reader.header.entryLengthEncoding c4Reader.file =
          (.ok (len, raw), f1) ∧
        ¬((c4Reader.fileSize : Int) - (c4Reader.offset : Int) < (len : Int)) ∧
        readFull f1 len = (.ok payload, f2) ∧
        ReadEntryChecksum c4Reader.header.entryChecksumType (raw ++ payload) f2 =
          (.error e, f3) ∧ errorsIs e .eof = true)) :=
  ⟨⟨by decide, by decide,
    c4_eof_characterization.1 c5WitnessReader (by decide) (by decide)⟩,
    c4_eof_characterization.2 c4Reader (SegmentReader.Next c4Reader).2 (by rfl)⟩

theorem readFull_all (bs : List Nat) (k : Nat) (hk : bs.length = k) :
    readFull { data := bs, pos := 0 } k = (.ok bs, { data := bs, pos := k }) := by
  subst hk
  have hrem : ({ data := bs, pos := 0 } : RFile).remaining = bs.length := rfl
  unfold readFull
  rw [hrem, if_pos (by omega)]
  simp

theorem WriteHeader_length (h : Header) (hm : h.magic.length = 4) :
    (WriteHeader h).length = 16 := by
  simp [WriteHeader, hm, leBytes_length]

/-- C9: `WriteHeader` emits exactly 16 bytes and `ReadHeader` inverts it on
every valid header; on any 16-byte input the decoder fails with
invalid-magic when the first four bytes are not `WAL\0`, with
unsupported-version when (the magic is right and) the version field is not
1, with unsupported-length-encoding when byte 6 is not in {1,2,3,4}, with
unsupported-checksum-type when byte 7 is not in {1,2}; an input shorter
than 16 bytes fails with an EOF or unexpected-EOF read error. -/
theorem c9_header_write_read (h : Header) (bs : List Nat) :
    ((h.magic = Magic → h.version = 1 → h.entryLengthEncoding ∈ [1, 2, 3, 4] →
      h.entryChecksumType ∈ [1, 2] → h.firstSequenceNumber < 2 ^ 64 →
      (WriteHeader h).length = 16 ∧
      ReadHeader { data := WriteHeader h, pos := 0 } =
        (.ok h, { data := WriteHeader h, pos := 16 }))) ∧
    (bs.length = 16 →
      (bs.take 4 ≠ Magic →
        ReadHeader { data := bs, pos := 0 } = (.error .invalidMagic, { data := bs, pos := 16 })) ∧
      (bs.take 4 = Magic → leVal ((bs.drop 4).take 2) ≠ 1 →
        ReadHeader { data := bs, pos := 0 } =
          (.error .unsupportedVersion, { data := bs, pos := 16 })) ∧
      (bs.take 4 = Magic → leVal ((bs.drop 4).take 2) = 1 →
        bs.getD 6 0 ∉ [1, 2, 3, 4] →
        ReadHeader { data := bs, pos := 0 } =
          (.error .unsupportedLengthEncoding, { data := bs, pos := 16 })) ∧
      (bs.take 4 = Magic → leVal ((bs.drop 4).take 2) = 1 →
        bs.getD 6 0 ∈ [1, 2, 3, 4] → bs.getD 7 0 ∉ [1, 2] →
        ReadHeader { data := bs, pos := 0 } =
          (.error .unsupportedChecksumType, { data := bs, pos := 16 }))) ∧
    (bs.length < 16 →
      ∃ e f', ReadHeader { data := bs, pos := 0 } = (.error e, f') ∧
        (errorsIs e .eof || errorsIs e .unexpectedEof) = true) := by
  refine ⟨?_, ?_, ?_⟩
  · intro hm hv henc hct hseq
    have hml : h.magic.length = 4 := by rw [hm]; rfl
    have hlen16 : (WriteHeader h).length = 16 := WriteHeader_length h hml
    refine ⟨hlen16, ?_⟩
    have hwh : WriteHeader h =
        h.magic ++ (leBytes 2 h.version ++ ([h.entryLengthEncoding % 256] ++
          ([h.entryChecksumType % 256] ++ leBytes 8 h.firstSequenceNumber))) := by
      simp [WriteHeader, hml, List.take_of_length_le, List.append_assoc]
    have henc256 : h.entryLengthEncoding % 256 = h.entryLengthEncoding := by
      have h4 : h.entryLengthEncoding = 1 ∨ h.entryLengthEncoding = 2 ∨
          h.entryLengthEncoding = 3 ∨ h.entryLengthEncoding = 4 := by simpa using henc
      rcases h4 with h' | h' | h' | h' <;> omega
    have hct256 : h.entryChecksumType % 256 = h.entryChecksumType := by
      have h2 : h.entryChecksumType = 1 ∨ h.entryChecksumType = 2 := by simpa using hct
      rcases h2 with h' | h' <;> omega
    have htake4 : (WriteHeader h).take 4 = h.magic := by
      rw [hwh, List.take_left' hml]
    have hdrop4 : (WriteHeader h).drop 4 =
        leBytes 2 h.version ++ ([h.entryLengthEncoding % 256] ++
          ([h.entryChecksumType % 256] ++ leBytes 8 h.firstSequenceNumber)) := by
      rw [hwh, List.drop_left' hml]
    have htake2 : ((WriteHeader h).drop 4).take 2 = leBytes 2 h.version := by
      rw [hdrop4, List.take_left' (leBytes_length 2 h.version)]
    have hdrop6 : (WriteHeader h).drop 6 =
        [h.entryLengthEncoding % 256] ++
          ([h.entryChecksumType % 256] ++ leBytes 8 h.firstSequenceNumber) := by
      have hdd : (WriteHeader h).drop 6 = ((WriteHeader h).drop 4).drop 2 := by
        rw [List.drop_drop]
      rw [hdd, hdrop4, List.drop_left' (leBytes_length 2 h.version)]
    have hget6 : (WriteHeader h).getD 6 0 = h.entryLengthEncoding := by
      have h1 : (WriteHeader h).getD 6 0 = ((WriteHeader h).drop 6).getD 0 0 := by
        rw [List.getD_eq_getElem?_getD, List.getD_eq_getElem?_getD,
          List.getElem?_drop]
      rw [h1, hdrop6]
      simp [henc256]
    have hdrop7 : (WriteHeader h).drop 7 =
        [h.entryChecksumType % 256] ++ leBytes 8 h.firstSequenceNumber := by
      have : (WriteHeader h).drop 7 = ((WriteHeader h).drop 6).drop 1 := by
        rw [List.drop_drop]
      rw [this, hdrop6]
      simp
    have hget7 : (WriteHeader h).getD 7 0 = h.entryChecksumType := by
      have h1 : (WriteHeader h).getD 7 0 = ((WriteHeader h).drop 7).getD 0 0 := by
        rw [List.getD_eq_getElem?_getD, List.getD_eq_getElem?_getD,
          List.getElem?_drop]
      rw [h1, hdrop7]
      simp [hct256]
    have hdrop8 : (WriteHeader h).drop 8 = leBytes 8 h.firstSequenceNumber := by
      have : (WriteHeader h).drop 8 = ((WriteHeader h).drop 7).drop 1 := by
        rw [List.drop_drop]
      rw [this, hdrop7]
      simp
    have htake8 : ((WriteHeader h).drop 8).take 8 = leBytes 8 h.firstSequenceNumber := by
      rw [hdrop8]
      exact List.take_of_length_le (by rw [leBytes_length])
    unfold ReadHeader
    rw [readFull_all _ 16 hlen16]
    have hleval2 : leVal (((WriteHeader h).drop 4).take 2) = h.version := by
      rw [htake2]
      exact leVal_leBytes 2 h.version (by rw [hv]; norm_num)
    have hleval8 : leVal (((WriteHeader h).drop 8).take 8) = h.firstSequenceNumber := by
      rw [htake8]
      exact leVal_leBytes 8 h.firstSequenceNumber (by norm_num; omega)
    simp only [htake4, hget6, hget7, hleval2, hleval8]
    rw [if_neg (by rw [hm]; simp), if_neg (by rw [hv]; simp [HeaderVersion]),
      if_neg (not_not_intro henc), if_neg (not_not_intro hct)]
  · intro hlen
    have hrf := readFull_all bs 16 hlen
    refine ⟨?_, ?_, ?_, ?_⟩
    · intro hmag
      unfold ReadHeader
      simp only [hrf]
      rw [if_pos (by simpa using hmag)]
    · intro hmag hver
      unfold ReadHeader
      simp only [hrf]
      rw [if_neg (by simpa using hmag), if_pos (by simpa [HeaderVersion] using hver)]
    · intro hmag hver henc
      unfold ReadHeader
      simp only [hrf]
      rw [if_neg (by simpa using hmag),
        if_neg (by simp [HeaderVersion, hver]), if_pos (by exact henc)]
    · intro hmag hver henc hct
      unfold ReadHeader
      simp only [hrf]
      rw [if_neg (by simpa using hmag),
        if_neg (by simp [HeaderVersion, hver]),
        if_neg (by exact not_not_intro henc), if_pos (by exact hct)]
  · intro hlen
    have hrem : ({ data := bs, pos := 0 } : RFile).remaining = bs.length := rfl
    unfold ReadHeader readFull
    rw [hrem, if_neg (by omega)]
    by_cases h0 : bs.length = 0
    · rw [if_pos h0]
      exact ⟨.wrap "reading WAL header" .eof, { data := bs, pos := 0 },
        rfl, by simp [errorsIs]⟩
    · rw [if_neg h0]
      exact ⟨.wrap "reading WAL header" .unexpectedEof, { data := bs, pos := bs.length },
        rfl, by simp [errorsIs]⟩

theorem c9_header_write_read_witness :
    ((WriteHeader c9WitnessHeader).length = 16 ∧
      ReadHeader { data := WriteHeader c9WitnessHeader, pos := 0 } =
        (.ok c9WitnessHeader, { data := WriteHeader c9WitnessHeader, pos := 16 })) ∧
    (ReadHeader { data := [0, 65, 76, 0, 1, 0, 1, 1, 0, 0, 0, 0, 0, 0, 0, 0], pos := 0 } =
      (.error .invalidMagic,
       { data := [0, 65, 76, 0, 1, 0, 1, 1, 0, 0, 0, 0, 0, 0, 0, 0], pos := 16 })) ∧
    (ReadHeader { data := [87, 65, 76, 0, 2, 0, 1, 1, 0, 0, 0, 0, 0, 0, 0, 0], pos := 0 } =
      (.error .unsupportedVersion,
       { data := [87, 65, 76, 0, 2, 0, 1, 1, 0, 0, 0, 0, 0, 0, 0, 0], pos := 16 })) ∧
    (ReadHeader { data := [87, 65, 76, 0, 1, 0, 9, 1, 0, 0, 0, 0, 0, 0, 0, 0], pos := 0 } =
      (.error .unsupportedLengthEncoding,
       { data := [87, 65, 76, 0, 1, 0, 9, 1, 0, 0, 0, 0, 0, 0, 0, 0], pos := 16 })) ∧
    (ReadHeader { data := [87, 65, 76, 0, 1, 0, 4, 3, 0, 0, 0, 0, 0, 0, 0, 0], pos := 0 } =
      (.error .unsupportedChecksumType,
       { data := [87, 65, 76, 0, 1, 0, 4, 3, 0, 0, 0, 0, 0, 0, 0, 0], pos := 16 })) ∧
    (∃ e f', ReadHeader { data := [87, 65, 76], pos := 0 } = (.error e, f') ∧
      (errorsIs e .eof || errorsIs e .unexpectedEof) = true) :=
  ⟨(c9_header_write_read c9WitnessHeader []).1 rfl rfl (by decide) (by decide) (by decide),
    ((c9_header_write_read c9WitnessHeader
        [0, 65, 76, 0, 1, 0, 1, 1, 0, 0, 0, 0, 0, 0, 0, 0]).2.1 rfl).1 (by decide),
    ((c9_header_write_read c9WitnessHeader
        [87, 65, 76, 0, 2, 0, 1, 1, 0, 0, 0, 0, 0, 0, 0, 0]).2.1 rfl).2.1 rfl (by decide),
    ((c9_header_write_read c9WitnessHeader
        [87, 65, 76, 0, 1, 0, 9, 1, 0, 0, 0, 0, 0, 0, 0, 0]).2.1 rfl).2.2.1 rfl (by decide)
      (by decide),
    ((c9_header_write_read c9WitnessHeader
        [87, 65, 76, 0, 1, 0, 4, 3, 0, 0, 0, 0, 0, 0, 0, 0]).2.1 rfl).2.2.2 rfl (by decide)
      (by decide) (by decide),
    (c9_header_write_read c9WitnessHeader [87, 65, 76]).2.2 (by decide)⟩

theorem AppendEntry_preserves_path_header (w : SegmentWriter) (data : List Nat) :
    (w.AppendEntry data).2.filePath = w.filePath ∧
    (w.AppendEntry data).2.header = w.header := by
  cases hwl : WriteEntryLength w.header.entryLengthEncoding data.length with
  | error e => simp [SegmentWriter.AppendEntry, hwl]
  | ok lenB =>
    cases hwc : WriteEntryChecksum w.header.entryChecksumType (lenB ++ data) with
    | error e => simp [SegmentWriter.AppendEntry, hwl, hwc]
    | ok chkB =>
      cases hok : w.fileOk with
      | false => simp [SegmentWriter.AppendEntry, hwl, hwc, hok]
      | true => simp [SegmentWriter.AppendEntry, hwl, hwc, hok]

theorem AppendEntry_ok_fields (w : SegmentWriter) (data : List Nat) (s : Nat)
    (hs : (w.AppendEntry data).1 = .ok s) :
    s = w.nextSequenceNumber ∧
    (w.AppendEntry data).2.nextSequenceNumber = w.nextSequenceNumber + 1 := by
  cases hwl : WriteEntryLength w.header.entryLengthEncoding data.length with
  | error e => simp [SegmentWriter.AppendEntry, hwl] at hs
  | ok lenB =>
    cases hwc : WriteEntryChecksum w.header.entryChecksumType (lenB ++ data) with
    | error e => simp [SegmentWriter.AppendEntry, hwl, hwc] at hs
    | ok chkB =>
      cases hok : w.fileOk with
      | false => simp [SegmentWriter.AppendEntry, hwl, hwc, hok] at hs
      | true =>
        simp [SegmentWriter.AppendEntry, hwl, hwc, hok] at hs ⊢
        exact hs.symm

theorem fsLookup_fsInsert (fs : FS) (p : String) (c : List Nat) :
    fsLookup (fsInsert fs p c) p = some c := by
  simp [fsInsert, fsLookup]

/-- C6: `Writer.appendEntry` performs a rollover before delegating the
append if and only if, at the start of the call, the current segment
writer's offset has reached the configured maximum segment size; an append
into a segment whose offset is still below the threshold never triggers a
rollover (the segment file and header stay the same), even when that
single append takes the offset past the maximum. -/
theorem c6_rollover_check_before_append (w : WalWriter) (fs : FS) (data : List Nat) :
    ((w.appendEntry fs data).2.2.2 = true ↔
      w.maxSegmentSize ≤ w.segmentWriter.offset) ∧
    (w.segmentWriter.offset < w.maxSegmentSize →
      (w.appendEntry fs data).2.2.2 = false ∧
      (w.appendEntry fs data).2.2.1.segmentWriter.filePath =
        w.segmentWriter.filePath ∧
      (w.appendEntry fs data).2.2.1.segmentWriter.header = w.segmentWriter.header) := by
  by_cases hlt : w.segmentWriter.offset < w.maxSegmentSize
  · have hpres := AppendEntry_preserves_path_header w.segmentWriter data
    unfold WalWriter.appendEntry WalWriter.rolloverIfNeeded
    rw [if_pos hlt]
    cases hae : w.segmentWriter.AppendEntry data with
    | mk r1 w1 =>
      rw [hae] at hpres
      simp only at hpres
      cases r1 with
      | error e =>
        refine ⟨by simp [hae]; omega, fun _ => ⟨by simp [hae], ?_, ?_⟩⟩
        · simp [hae]
        · simp [hae]
      | ok s =>
        refine ⟨by simp [hae]; omega, fun _ => ⟨by simp [hae], ?_, ?_⟩⟩
        · simp [hae]
          exact hpres.1
        · simp [hae]
          exact hpres.2
  · unfold WalWriter.appendEntry WalWriter.rolloverIfNeeded
    rw [if_neg hlt]
    refine ⟨?_, fun h => absurd h hlt⟩
    cases hae : (w.rollover fs).2.segmentWriter.AppendEntry data with
    | mk r1 w1 =>
      cases r1 with
      | error e =>
        simp [hae]
        omega
      | ok s =>
        simp [hae]
        omega

theorem c6_rollover_check_before_append_witness :
    c6WitnessWal.segmentWriter.offset < c6WitnessWal.maxSegmentSize ∧
    ((c6WitnessWal.appendEntry [] [1, 2, 3, 4, 5]).2.2.2 = false ∧
      (c6WitnessWal.appendEntry [] [1, 2, 3, 4, 5]).2.2.1.segmentWriter.filePath =
        c6WitnessWal.segmentWriter.filePath ∧
      (c6WitnessWal.appendEntry [] [1, 2, 3, 4, 5]).2.2.1.segmentWriter.header =
        c6WitnessWal.segmentWriter.header) :=
  ⟨by decide,
    (c6_rollover_check_before_append c6WitnessWal [] [1, 2, 3, 4, 5]).2 (by decide)⟩

/-- C7: a rollover creates the next segment with a header first sequence
number (and a writer next sequence number) equal to the outgoing segment
writer's next sequence number, the new segment file on disk starts with
that header, and every successful `appendEntry` returns the pre-call next
sequence number and leaves the next sequence number one higher — so over
any run of appends, sequence numbers continue across segment boundaries
with no gap. -/
theorem c7_rollover_sequence_continuity (w : WalWriter) (fs : FS) (data : List Nat) :
    ((w.rollover fs).2.segmentWriter.header.firstSequenceNumber =
        w.segmentWriter.nextSequenceNumber ∧
      (w.rollover fs).2.segmentWriter.nextSequenceNumber =
        w.segmentWriter.nextSequenceNumber ∧
      ∃ c, fsLookup (w.rollover fs).1
          (joinPath (pathDir w.segmentWriter.filePath)
            (SegmentFileName w.segmentWriter.nextSequenceNumber)) = some c ∧
        c.take 16 = WriteHeader (w.rollover fs).2.segmentWriter.header) ∧
    (∀ s, (w.appendEntry fs data).1 = .ok s →
      s = (w.rolloverIfNeeded fs).2.1.segmentWriter.nextSequenceNumber ∧
      (w.rolloverIfNeeded fs).2.1.segmentWriter.nextSequenceNumber =
        w.segmentWriter.nextSequenceNumber ∧
      (w.appendEntry fs data).2.2.1.segmentWriter.nextSequenceNumber = s + 1) := by
  have hdr : (w.rollover fs).2.segmentWriter.header.firstSequenceNumber =
      w.segmentWriter.nextSequenceNumber := rfl
  have hnsq : (w.rollover fs).2.segmentWriter.nextSequenceNumber =
      w.segmentWriter.nextSequenceNumber := rfl
  have hwh16 : (WriteHeader (w.rollover fs).2.segmentWriter.header).length = 16 :=
    WriteHeader_length _ rfl
  constructor
  · refine ⟨hdr, hnsq, ?_⟩
    refine ⟨writeAt (if 0 < w.preAllocationSize
        then List.replicate w.preAllocationSize 0 else [])
      0 (WriteHeader (w.rollover fs).2.segmentWriter.header), ?_, ?_⟩
    · exact fsLookup_fsInsert _ _ _
    · unfold writeAt
      simp only [List.take_zero, List.nil_append, Nat.zero_sub,
        List.replicate_zero, Nat.zero_add]
      rw [← hwh16, List.take_left' rfl]
  · intro s hs
    have hroll_nsq : (w.rolloverIfNeeded fs).2.1.segmentWriter.nextSequenceNumber =
        w.segmentWriter.nextSequenceNumber := by
      unfold WalWriter.rolloverIfNeeded
      split
      · rfl
      · exact hnsq
    refine ⟨?_, hroll_nsq, ?_⟩
    · simp only [WalWriter.appendEntry] at hs
      cases hae : (w.rolloverIfNeeded fs).2.1.segmentWriter.AppendEntry data with
      | mk r1 w1 =>
        rw [hae] at hs
        cases r1 with
        | error e => simp at hs
        | ok s' =>
          simp at hs
          subst hs
          have := (AppendEntry_ok_fields (w.rolloverIfNeeded fs).2.1.segmentWriter
            data s' (by rw [hae])).1
          exact this
    · simp only [WalWriter.appendEntry] at hs ⊢
      cases hae : (w.rolloverIfNeeded fs).2.1.segmentWriter.AppendEntry data with
      | mk r1 w1 =>
        cases r1 with
        | error e =>
          rw [hae] at hs
          simp at hs
        | ok s' =>
          rw [hae] at hs
          simp at hs ⊢
          subst hs
          have h2 := AppendEntry_ok_fields (w.rolloverIfNeeded fs).2.1.segmentWriter
            data s' (by rw [hae])
          rw [hae] at h2
          simp at h2
          omega

theorem c7_rollover_sequence_continuity_witness :
    ((c7WitnessWal.rollover []).2.segmentWriter.header.firstSequenceNumber =
        c7WitnessWal.segmentWriter.nextSequenceNumber ∧
      (c7WitnessWal.rollover []).2.segmentWriter.nextSequenceNumber =
        c7WitnessWal.segmentWriter.nextSequenceNumber ∧
      ∃ c, fsLookup (c7WitnessWal.rollover []).1
          (joinPath (pathDir c7WitnessWal.segmentWriter.filePath)
            (SegmentFileName c7WitnessWal.segmentWriter.nextSequenceNumber)) = some c ∧
        c.take 16 = WriteHeader (c7WitnessWal.rollover []).2.segmentWriter.header) ∧
    ((c7WitnessWal.appendEntry [] [7]).1 = .ok 2 ∧
      (2 = (c7WitnessWal.rolloverIfNeeded []).2.1.segmentWriter.nextSequenceNumber ∧
        (c7WitnessWal.rolloverIfNeeded []).2.1.segmentWriter.nextSequenceNumber =
          c7WitnessWal.segmentWriter.nextSequenceNumber ∧
        (c7WitnessWal.appendEntry [] [7]).2.2.1.segmentWriter.nextSequenceNumber =
          2 + 1)) :=
  ⟨(c7_rollover_sequence_continuity c7WitnessWal [] [7]).1,
    ⟨rfl, (c7_rollover_sequence_continuity c7WitnessWal [] [7]).2 2 rfl⟩⟩

/-- C3 as frozen is false: `Init` on a directory that already contains an
initialized write-ahead log succeeds (it never checks), and the rename
inside `CreateSegment` replaces the existing first segment file, so the
segment files do not stay unchanged. -/
theorem c3_counterexample :
    (walInit c3FS "d" [WithPreAllocationSize 0]).isOk = true ∧
    ∃ fs', walInit c3FS "d" [WithPreAllocationSize 0] = .ok fs' ∧
      fsLookup fs' c3Path ≠ fsLookup c3FS c3Path := by
  refine ⟨rfl, _, rfl, ?_⟩
  decide

/-- C3 (amended): `Init` performs no initialized-directory check: on any
file system, also one already containing segment files, it succeeds and
maps the segment-zero path to a freshly created segment holding only the
16-byte header built from its configuration, replacing whatever was there. -/
theorem c3_init_overwrites_existing (fs : FS) (dir : String) :
    ∃ fs', walInit fs dir [WithPreAllocationSize 0] = .ok fs' ∧
      fsLookup fs' (joinPath dir (SegmentFileName 0)) = some (WriteHeader c3Header) := by
  refine ⟨_, rfl, ?_⟩
  simp only [walInit, CreateSegment, List.foldl, WithPreAllocationSize]
  rw [fsLookup_fsInsert]
  unfold writeAt
  simp [c3Header]

set_option maxRecDepth 65536 in
/-- C2 fails on the code: with the inner segment reader at EOF and the
segment whose first sequence number equals the reader's next sequence
number present in directory `d`, `Reader.Next` returns `false` and keeps
the EOF-signalling error, because line 103 of reader.go passes
`SegmentFileName(next)` as the directory, so it looks for
`"<name>.wal/<name>.wal"` instead of `"d/<name>.wal"`; opening the segment
in `d` (as `NewReader` does on line 41 and as the tests expect) succeeds
and yields entry 1. -/
theorem c2_next_segment_wrong_path :
    fsLookup c2FS (joinPath "d" (SegmentFileName 1)) = some c2Seg1 ∧
    (WalReader.NextAux c2FS c2Reader 2).1 = false ∧
    errorsIsO (WalReader.NextAux c2FS c2Reader 2).2.err .eof = true ∧
    OpenSegment c2FS (SegmentFileName 1) 1 =
      .error (.wrap "the WAL segment file"
        (.fileNotFound (joinPath (SegmentFileName 1) (SegmentFileName 1)))) ∧
    ((OpenSegment c2FS "d" 1).toOption.map fun nr =>
      ((SegmentReader.Next nr).1, (SegmentReader.Next nr).2.valueData,
        (SegmentReader.Next nr).2.valueSeq)) = some (true, [98], 1) := by
  refine ⟨by decide, by decide, by decide, rfl, by decide⟩

end Wal
